import Mathlib

/-!
# Sprint Tracker: analytics and gamification core

A shallow embedding of the analytics functions of `src/src/App.jsx`
(`calculateSprintInsights`, `predictSprintCompletion`,
`calculateCategorySuccessRate`, `generateWeeklyReport`, `getXpProgressionData`)
and of the state updates (`toggleTaskComplete`, `scheduleTask`, `postponeTask`,
`logTime`, `addXP`, `checkBadges`) together with the properties the
specification states about them.

Modelling conventions.

* A JavaScript number is a `JSNum`: `NaN`, `+Infinity`, `-Infinity` or a finite
  value.  Finite values are exact rationals, so the rounding error of IEEE
  doubles and the sign of zero are not represented.
* The entity store (the React state of `AppProvider`) is passed explicitly as a
  `Store`; the current time (`new Date()`) is passed explicitly in milliseconds.
* `sprint.startDate` and `sprint.endDate` are stored as the time value, in
  milliseconds, that `new Date(...)` yields for the stored ISO date string.
* A field that the source reads defensively (`?.`, `|| []`, `|| 0`) is an
  `Option`; `none` is a missing (`undefined`) field.
* The methods of `Date` that work in local time (`getDate`, `setDate`) take the
  time zone of the browser as a parameter, a `TimeZone`; `toISOString` and the
  parsing of a `YYYY-MM-DD` string work in UTC, as in the language standard.
-/

namespace SprintTracker

/-! ## JavaScript numbers -/

/-- A JavaScript number: not-a-number, a finite value, or an infinity. -/
inductive JSNum where
  | nan
  | fin (q : ℚ)
  | pinf
  | ninf
  deriving DecidableEq

namespace JSNum

/-- Unary minus. -/
def neg : JSNum → JSNum
  | nan => nan
  | fin a => fin (-a)
  | pinf => ninf
  | ninf => pinf

/-- The `+` operator on numbers. -/
def add : JSNum → JSNum → JSNum
  | fin a, fin b => fin (a + b)
  | nan, _ => nan
  | _, nan => nan
  | pinf, ninf => nan
  | ninf, pinf => nan
  | pinf, _ => pinf
  | _, pinf => pinf
  | ninf, _ => ninf
  | _, ninf => ninf

/-- The binary `-` operator on numbers. -/
def sub (a b : JSNum) : JSNum := add a (neg b)

/-- An infinity of the given sign (`true` is positive). -/
def signedInf (positive : Bool) : JSNum := if positive then pinf else ninf

/-- The `*` operator on numbers. -/
def mul : JSNum → JSNum → JSNum
  | fin a, fin b => fin (a * b)
  | nan, _ => nan
  | _, nan => nan
  | pinf, fin b => if b = 0 then nan else signedInf (decide (0 < b))
  | ninf, fin b => if b = 0 then nan else signedInf (decide (b < 0))
  | fin a, pinf => if a = 0 then nan else signedInf (decide (0 < a))
  | fin a, ninf => if a = 0 then nan else signedInf (decide (a < 0))
  | pinf, pinf => pinf
  | ninf, ninf => pinf
  | pinf, ninf => ninf
  | ninf, pinf => ninf

/-- The `/` operator on numbers: a zero divisor gives an infinity or `NaN`. -/
def div : JSNum → JSNum → JSNum
  | fin a, fin b =>
    if b = 0 then (if a = 0 then nan else signedInf (decide (0 < a))) else fin (a / b)
  | nan, _ => nan
  | _, nan => nan
  | fin _, pinf => fin 0
  | fin _, ninf => fin 0
  | pinf, fin b => signedInf (decide (0 ≤ b))
  | ninf, fin b => signedInf (decide (b < 0))
  | pinf, pinf => nan
  | pinf, ninf => nan
  | ninf, pinf => nan
  | ninf, ninf => nan

/-- The `<` operator on numbers; every comparison with `NaN` is false. -/
def lt : JSNum → JSNum → Bool
  | fin a, fin b => decide (a < b)
  | nan, _ => false
  | _, nan => false
  | ninf, ninf => false
  | ninf, _ => true
  | _, ninf => false
  | pinf, _ => false
  | _, pinf => true

/-- The `>` operator on numbers. -/
def gt (a b : JSNum) : Bool := lt b a

/-- The `>=` operator on numbers; every comparison with `NaN` is false. -/
def ge : JSNum → JSNum → Bool
  | nan, _ => false
  | _, nan => false
  | a, b => !(lt a b)

/-- The `===` operator on numbers; `NaN` is not equal to itself. -/
def strictEq : JSNum → JSNum → Bool
  | fin a, fin b => decide (a = b)
  | pinf, pinf => true
  | ninf, ninf => true
  | _, _ => false

/-- `Math.min` of two numbers. -/
def min : JSNum → JSNum → JSNum
  | nan, _ => nan
  | _, nan => nan
  | a, b => if lt a b then a else b

/-- `Math.max` of two numbers. -/
def max : JSNum → JSNum → JSNum
  | nan, _ => nan
  | _, nan => nan
  | a, b => if lt a b then b else a

/-- `Math.ceil`. -/
def ceil : JSNum → JSNum
  | fin a => fin ((⌈a⌉ : ℤ) : ℚ)
  | x => x

/-- `Math.round`: the nearest integer, a tie going up. -/
def round : JSNum → JSNum
  | fin a => fin ((⌊a + 1 / 2⌋ : ℤ) : ℚ)
  | x => x

/-- `Number(x.toFixed(2))`: two decimals, a tie going away from zero. -/
def toFixed2 : JSNum → JSNum
  | fin a =>
    if a < 0 then fin (-(((⌊-a * 100 + 1 / 2⌋ : ℤ) : ℚ) / 100))
    else fin (((⌊a * 100 + 1 / 2⌋ : ℤ) : ℚ) / 100)
  | x => x

/-- Truthiness of a number: `0` and `NaN` are falsy. -/
def truthy : JSNum → Bool
  | nan => false
  | fin a => decide (a ≠ 0)
  | _ => true

/-- The expression `x || d` for a number `x`. -/
def orElse (x d : JSNum) : JSNum := if truthy x then x else d

/-- The expression `x || d` where `x` may be `undefined`. -/
def orElseOpt (x : Option JSNum) (d : JSNum) : JSNum :=
  match x with
  | none => d
  | some v => orElse v d

end JSNum

/-! ## Data model -/

/-- One entry of `Sprint.weeklyTasks`. -/
structure Task where
  week : Int := 0
  title : String := ""
  description : String := ""
  actionItems : List String := []
  category : String := "general"
  completed : Bool := false
  deriving DecidableEq

/-- One entry of `Sprint.goalCategories`. -/
structure GoalCategory where
  name : String := ""
  category : String := ""
  deriving DecidableEq

/-- The object `sprint.privacy`; `goals` maps a goal name to a flag and is
`none` when the key is missing. -/
structure Privacy where
  goals : Option (List (String × Bool)) := none
  deriving DecidableEq

/-- A sprint. `completedTasks` holds positions into `weeklyTasks`; `startDate`
and `endDate` are time values in milliseconds. -/
structure Sprint where
  id : String
  name : Option String := none
  goal : Option String := none
  category : Option String := none
  difficulty : Option String := none
  startDate : Int := 0
  endDate : Int := 0
  createdAt : Option Int := none
  weeklyTasks : Option (List Task) := none
  completedTasks : Option (List Nat) := none
  goalCategories : Option (List GoalCategory) := none
  privacy : Option Privacy := none
  deriving DecidableEq

/-- A value of the `taskSchedules` object. The stored `YYYY-MM-DD` string is
represented by the calendar day it names, counted in days since 1970-01-01, so
the day after day `d` is `d + 1` also across month and year ends. -/
structure ScheduleEntry where
  date : Int
  postponeCount : Nat
  deriving DecidableEq

/-- A habit; `lastCompleted` is a time value in milliseconds, `none` for `null`. -/
structure Habit where
  id : String
  name : String := ""
  completed : Bool := false
  lastCompleted : Option Int := none
  deriving DecidableEq

/-- The entity store read by the analytics functions. The objects
`taskSchedules` and `timeLogged` are lookups by task key, `none` for a key that
is not present. -/
structure Store where
  sprints : List Sprint := []
  completedSprints : List Sprint := []
  taskSchedules : String → Option ScheduleEntry := fun _ => none
  timeLogged : String → Option ℚ := fun _ => none
  xp : Int := 0
  level : Int := 1
  streak : Int := 0
  unlockedBadges : List String := []
  habits : List Habit := []
  lastCheckIn : Option Int := none

/-- The composite task key, the template literal of `sprint.id`, a dash and the
task position. -/
def taskKey (sprintId : String) (idx : Nat) : String :=
  sprintId ++ "-" ++ toString idx

/-- The expression `xs?.length` for an array that may be missing. -/
def lengthOf {α : Type} (xs : Option (List α)) : Option JSNum :=
  xs.map (fun l => JSNum.fin (l.length : ℚ))

/-! ## Insight calculator -/

/-- The object returned by `calculateSprintInsights`. -/
structure Insight where
  sprintId : String
  name : Option String
  goal : Option String
  completionRate : JSNum
  totalTasks : JSNum
  completedTasks : JSNum
  totalPostponements : JSNum
  avgPostponements : JSNum
  maxPostpones : JSNum
  hoursLogged : JSNum
  difficulty : String
  createdDate : Option Int
  categories : List GoalCategory
  deriving DecidableEq

/-- The expression `taskSchedules[taskId]?.postponeCount || 0`. -/
def postponeCountOf (st : Store) (taskId : String) : JSNum :=
  JSNum.orElseOpt ((st.taskSchedules taskId).map (fun e => JSNum.fin (e.postponeCount : ℚ)))
    (JSNum.fin 0)

/-- The expression `timeLogged[taskId] || 0`. -/
def timeLoggedOf (st : Store) (taskId : String) : JSNum :=
  JSNum.orElseOpt ((st.timeLogged taskId).map JSNum.fin) (JSNum.fin 0)

/-- The `forEach` loop of `calculateSprintInsights`: the pair
`(totalPostponements, maxPostpones)` after visiting every task position. -/
def postponementLoop (st : Store) (sprint : Sprint) : JSNum × JSNum :=
  match sprint.weeklyTasks with
  | none => (JSNum.fin 0, JSNum.fin 0)
  | some tasks =>
    (List.range tasks.length).foldl
      (fun acc idx =>
        let postponeCount := postponeCountOf st (taskKey sprint.id idx)
        (JSNum.add acc.1 postponeCount, JSNum.max acc.2 postponeCount))
      (JSNum.fin 0, JSNum.fin 0)

/-- The `reduce` of `calculateSprintInsights` followed by `|| 0`. -/
def hoursLoggedOf (st : Store) (sprint : Sprint) : JSNum :=
  JSNum.orElseOpt
    (sprint.weeklyTasks.map (fun tasks =>
      (List.range tasks.length).foldl
        (fun sum idx => JSNum.add sum (timeLoggedOf st (taskKey sprint.id idx)))
        (JSNum.fin 0)))
    (JSNum.fin 0)

/-- The function `calculateSprintInsights`; `none` is a `null` sprint. -/
def calculateSprintInsights (st : Store) (sprintArg : Option Sprint) : Option Insight :=
  match sprintArg with
  | none => none
  | some sprint =>
    let totalTasks := JSNum.orElseOpt (lengthOf sprint.weeklyTasks) (JSNum.fin 0)
    let completedTasks := JSNum.orElseOpt (lengthOf sprint.completedTasks) (JSNum.fin 0)
    let completionRate :=
      if JSNum.gt totalTasks (JSNum.fin 0) then
        JSNum.round (JSNum.mul (JSNum.div completedTasks totalTasks) (JSNum.fin 100))
      else JSNum.fin 0
    let loop := postponementLoop st sprint
    let totalPostponements := loop.1
    let maxPostpones := loop.2
    let avgPostponements :=
      if JSNum.gt totalTasks (JSNum.fin 0) then
        JSNum.div
          (JSNum.round (JSNum.mul (JSNum.div totalPostponements totalTasks) (JSNum.fin 10)))
          (JSNum.fin 10)
      else JSNum.fin 0
    let hoursLogged := hoursLoggedOf st sprint
    some
      { sprintId := sprint.id
        name := sprint.name
        goal := sprint.goal
        completionRate := completionRate
        totalTasks := totalTasks
        completedTasks := completedTasks
        totalPostponements := totalPostponements
        avgPostponements := avgPostponements
        maxPostpones := maxPostpones
        hoursLogged := hoursLogged
        difficulty :=
          if JSNum.gt hoursLogged (JSNum.fin 20) then "Hard"
          else if JSNum.gt hoursLogged (JSNum.fin 10) then "Medium"
          else "Easy"
        createdDate := sprint.createdAt
        categories := sprint.goalCategories.getD [] }

/-! ## Forecast engine -/

/-- The function `calculateCategorySuccessRate`. -/
def calculateCategorySuccessRate (st : Store) (category : Option String) : JSNum :=
  if st.completedSprints.length = 0 then JSNum.fin 50
  else
    let categorySpints := st.completedSprints.filter (fun s => decide (s.category = category))
    if categorySpints.length = 0 then JSNum.fin 50
    else
      let completionRates := categorySpints.map (fun s =>
        match calculateSprintInsights st (some s) with
        | some insights => insights.completionRate
        | none => JSNum.nan)
      let avgCompletion :=
        JSNum.div (completionRates.foldl JSNum.add (JSNum.fin 0))
          (JSNum.fin (completionRates.length : ℚ))
      avgCompletion

/-- One element of `riskFlags`. -/
structure RiskFlag where
  level : String
  message : String
  deriving DecidableEq

/-- The flag pushed when `velocity === 0`. -/
def flagNoProgress : RiskFlag :=
  { level := "critical", message := "⚠️ No progress yet - start now!" }

/-- The flag pushed when `velocity < 0.5 && elapsedDays > 3`. -/
def flagLowVelocity : RiskFlag :=
  { level := "warning", message := "📉 Low velocity - need to speed up" }

/-- The flag pushed when `predictedDaysRemaining > remainingDays * 1.5`. -/
def flagFallingBehind : RiskFlag :=
  { level := "warning", message := "⏰ Falling behind schedule" }

/-- The flag pushed when `successProbability < 30`. -/
def flagHighRisk : RiskFlag :=
  { level := "critical", message := "🚨 High risk of failure" }

/-- The flag pushed for a hard sprint with little progress. -/
def flagHardSprint : RiskFlag :=
  { level := "warning", message := "💪 Hard sprint - increase effort" }

/-- The flag pushed when `velocity > 1.5`. -/
def flagExcellentPace : RiskFlag :=
  { level := "success", message := "🚀 Excellent pace - on track!" }

/-- The flag pushed when `currentProgress > 80`. -/
def flagAlmostThere : RiskFlag :=
  { level := "success", message := "✨ Almost there - finish strong!" }

/-- The statement `if (c) riskFlags.push(f)`. -/
def pushIf (c : Bool) (f : RiskFlag) (riskFlags : List RiskFlag) : List RiskFlag :=
  if c then riskFlags ++ [f] else riskFlags

/-- The local variables of `predictSprintCompletion` after its last `if`, before
the returned object rounds them. -/
structure ForecastLocals where
  totalTasks : JSNum
  completedTasks : JSNum
  currentProgress : JSNum
  totalDays : JSNum
  elapsedDays : JSNum
  remainingDays : JSNum
  velocity : JSNum
  tasksRemaining : JSNum
  predictedDaysRemaining : JSNum
  categorySuccessRate : JSNum
  successProbability : JSNum
  riskFlags : List RiskFlag
  deriving DecidableEq

/-- The body of `predictSprintCompletion` for the sprint that was found, up to
the `return`; `now` is the time value of `new Date()`. -/
def forecastLocals (st : Store) (now : Int) (sprint : Sprint) : ForecastLocals :=
  let totalTasks := JSNum.orElseOpt (lengthOf sprint.weeklyTasks) (JSNum.fin 1)
  let completedTasks := JSNum.orElseOpt (lengthOf sprint.completedTasks) (JSNum.fin 0)
  let currentProgress := JSNum.mul (JSNum.div completedTasks totalTasks) (JSNum.fin 100)
  let startDate := JSNum.fin (sprint.startDate : ℚ)
  let endDate := JSNum.fin (sprint.endDate : ℚ)
  let msPerDay := JSNum.fin (1000 * 60 * 60 * 24)
  let totalDays := JSNum.ceil (JSNum.div (JSNum.sub endDate startDate) msPerDay)
  let elapsedDays := JSNum.ceil (JSNum.div (JSNum.sub (JSNum.fin (now : ℚ)) startDate) msPerDay)
  let remainingDays := JSNum.max (JSNum.fin 1) (JSNum.sub totalDays elapsedDays)
  let velocity :=
    if JSNum.gt elapsedDays (JSNum.fin 0) then JSNum.div completedTasks elapsedDays
    else JSNum.fin 0
  let tasksRemaining := JSNum.sub totalTasks completedTasks
  let predictedDaysRemaining :=
    if JSNum.gt velocity (JSNum.fin 0) then JSNum.div tasksRemaining velocity
    else remainingDays
  let base := JSNum.fin 50
  let withProgress :=
    JSNum.add base
      (JSNum.min (JSNum.fin 30) (JSNum.mul (JSNum.div currentProgress (JSNum.fin 100)) (JSNum.fin 30)))
  let velocityScore :=
    JSNum.min (JSNum.fin 20) (JSNum.mul (JSNum.div velocity (JSNum.fin 1)) (JSNum.fin 20))
  let withVelocity := JSNum.add withProgress velocityScore
  let timeScore :=
    JSNum.min (JSNum.fin 20) (JSNum.mul (JSNum.div remainingDays (JSNum.fin 7)) (JSNum.fin 20))
  let withTime := JSNum.add withVelocity timeScore
  let categorySuccessRate := calculateCategorySuccessRate st sprint.category
  let withCategory :=
    JSNum.add withTime (JSNum.mul (JSNum.div categorySuccessRate (JSNum.fin 100)) (JSNum.fin 10))
  let withStreak :=
    JSNum.add withCategory
      (JSNum.min (JSNum.fin 10)
        (JSNum.mul (JSNum.div (JSNum.fin (st.streak : ℚ)) (JSNum.fin 30)) (JSNum.fin 10)))
  let successProbability := JSNum.min (JSNum.fin 100) (JSNum.max (JSNum.fin 0) withStreak)
  let flags0 : List RiskFlag := []
  let flags1 := pushIf (JSNum.strictEq velocity (JSNum.fin 0)) flagNoProgress flags0
  let flags2 :=
    pushIf (JSNum.lt velocity (JSNum.fin (1 / 2)) && JSNum.gt elapsedDays (JSNum.fin 3))
      flagLowVelocity flags1
  let flags3 :=
    pushIf (JSNum.gt predictedDaysRemaining (JSNum.mul remainingDays (JSNum.fin (3 / 2))))
      flagFallingBehind flags2
  let flags4 := pushIf (JSNum.lt successProbability (JSNum.fin 30)) flagHighRisk flags3
  let flags5 :=
    pushIf (decide (sprint.difficulty = some "Hard")
        && JSNum.lt currentProgress (JSNum.fin 30)
        && JSNum.gt elapsedDays (JSNum.mul totalDays (JSNum.fin (3 / 10)))) flagHardSprint flags4
  let flags6 := pushIf (JSNum.gt velocity (JSNum.fin (3 / 2))) flagExcellentPace flags5
  let riskFlags := pushIf (JSNum.gt currentProgress (JSNum.fin 80)) flagAlmostThere flags6
  { totalTasks := totalTasks
    completedTasks := completedTasks
    currentProgress := currentProgress
    totalDays := totalDays
    elapsedDays := elapsedDays
    remainingDays := remainingDays
    velocity := velocity
    tasksRemaining := tasksRemaining
    predictedDaysRemaining := predictedDaysRemaining
    categorySuccessRate := categorySuccessRate
    successProbability := successProbability
    riskFlags := riskFlags }

/-- The object returned by `predictSprintCompletion`. The field
`predictedCompletionDate`, a date formatted for the `en-US` locale, is not
represented. -/
structure Prediction where
  currentProgress : JSNum
  velocity : JSNum
  predictedDaysRemaining : JSNum
  successProbability : JSNum
  riskFlags : List RiskFlag
  elapsedDays : JSNum
  totalDays : JSNum
  remainingDays : JSNum
  deriving DecidableEq

/-- The function `predictSprintCompletion`; `none` is the `null` returned when
no sprint has the given id. -/
def predictSprintCompletion (st : Store) (now : Int) (sprintId : String) : Option Prediction :=
  match st.sprints.find? (fun s => decide (s.id = sprintId)) with
  | none => none
  | some sprint =>
    let l := forecastLocals st now sprint
    some
      { currentProgress := JSNum.round l.currentProgress
        velocity := JSNum.toFixed2 l.velocity
        predictedDaysRemaining := JSNum.round l.predictedDaysRemaining
        successProbability := JSNum.round l.successProbability
        riskFlags := l.riskFlags
        elapsedDays := l.elapsedDays
        totalDays := l.totalDays
        remainingDays := l.remainingDays }

/-! ## Task completion -/

/-- The expression `xs.indexOf(x)`: the first position of `x`, or `-1`. -/
def indexOf (xs : List Nat) (x : Nat) : Int :=
  match xs with
  | [] => -1
  | y :: ys =>
    if y = x then 0
    else
      let r := indexOf ys x
      if r = -1 then -1 else r + 1

/-- The statements of `toggleTaskComplete` that build `updatedCompleted`. -/
def toggleCompleted (completedTasks : Option (List Nat)) (taskIndex : Nat) : List Nat :=
  let updatedCompleted := completedTasks.getD []
  let index := indexOf updatedCompleted taskIndex
  if index > -1 then updatedCompleted.eraseIdx index.toNat
  else updatedCompleted ++ [taskIndex]

/-- The state update of `toggleTaskComplete`: the function given to
`setSprints`, applied to the previous collection. The experience points and
the notification issued for a newly completed task live in other state and are
not part of this update. -/
def toggleTaskComplete (sprintId : String) (taskIndex : Nat) (prev : List Sprint) : List Sprint :=
  prev.map (fun s =>
    if s.id = sprintId then
      { s with completedTasks := some (toggleCompleted s.completedTasks taskIndex) }
    else s)

/-! ## Dates and time zones -/

/-- The time zone of the browser. `offsetAtUTC t` is local time minus UTC, in
milliseconds, at the UTC time value `t`; `offsetAtLocal t` is the same offset
looked up by the local time value `t`. -/
structure TimeZone where
  offsetAtUTC : Int → Int
  offsetAtLocal : Int → Int

/-- The zone of UTC itself. -/
def utcZone : TimeZone :=
  { offsetAtUTC := fun _ => 0, offsetAtLocal := fun _ => 0 }

/-- US Eastern time in the first half of 2024: five hours behind UTC until the
clocks go forward on 10 March 2024 at 02:00 local time (07:00 UTC), four hours
behind afterwards. -/
def usEastern2024 : TimeZone :=
  { offsetAtUTC := fun t => if t < 1710054000000 then -18000000 else -14400000
    offsetAtLocal := fun t => if t < 1710036000000 then -18000000 else -14400000 }

/-- The expression `d.toISOString().split('T')[0]` as a calendar day: the UTC
day of the time value `t`. -/
def utcDay (t : Int) : Int := t / 86400000

/-- The expression `new Date(s)` for the `YYYY-MM-DD` string of day `d`:
midnight UTC of that day. -/
def parseDay (d : Int) : Int := d * 86400000

/-- The statement `d.setDate(d.getDate() + n)` on the time value `t`: the local
calendar date moves by `n` days, the local time of day is kept, and the result
is turned back into UTC with the offset in force at the new local time. -/
def setDatePlus (tz : TimeZone) (t : Int) (n : Int) : Int :=
  let localTime := t + tz.offsetAtUTC t
  let newLocal := localTime + n * 86400000
  newLocal - tz.offsetAtLocal newLocal

/-! ## Schedule updates -/

/-- The state update of `scheduleTask(taskId, date, postponeCount = 0)`;
`postponeCountArg` is `none` when the caller leaves the argument out. -/
def scheduleTask (taskId : String) (date : Int) (postponeCountArg : Option Nat)
    (prev : String → Option ScheduleEntry) : String → Option ScheduleEntry :=
  let postponeCount := postponeCountArg.getD 0
  fun key => if key = taskId then some { date := date, postponeCount := postponeCount } else prev key

/-- The function `postponeTask`; `now` is the time value of `new Date()`. -/
def postponeTask (tz : TimeZone) (now : Int) (taskSchedules : String → Option ScheduleEntry)
    (taskId : String) : String → Option ScheduleEntry :=
  let current := (taskSchedules taskId).getD { date := utcDay now, postponeCount := 0 }
  let nextDate := setDatePlus tz (parseDay current.date) 1
  scheduleTask taskId (utcDay nextDate) (some (current.postponeCount + 1)) taskSchedules

/-- The handler `handleDayDrop` of the calendar: the dragged task, when there
is one, is rescheduled to the dropped day by `scheduleTask(id, date)`, with no
third argument. `day` is the local calendar day of the cell. -/
def handleDayDrop (tz : TimeZone) (draggedTask : Option String) (day : Int)
    (prev : String → Option ScheduleEntry) : String → Option ScheduleEntry :=
  match draggedTask with
  | none => prev
  | some id =>
    let newLocal := day * 86400000
    let newDate := newLocal - tz.offsetAtLocal newLocal
    scheduleTask id (utcDay newDate) none prev

/-- The date `getAllTasks` shows for a task: the scheduled day, or the day of
`sprint.startDate` when the key has no entry. -/
def scheduledDateShown (taskSchedules : String → Option ScheduleEntry) (sprint : Sprint)
    (idx : Nat) : Int :=
  match taskSchedules (taskKey sprint.id idx) with
  | some e => e.date
  | none => utcDay sprint.startDate

/-! ## Experience points, time log and badges -/

/-- The function `addXP`: the new `xp`, and the new `level` when it is higher
than the current one. -/
def addXP (amount : Int) (st : Store) : Store :=
  let newXp := st.xp + amount
  let newLevel := ⌊(newXp : ℚ) / 500⌋ + 1
  if newLevel > st.level then { st with xp := newXp, level := newLevel }
  else { st with xp := newXp }

/-- The function `logTime`: the hours are added to the cumulative value of the
key, and `Math.floor(hours * 2)` experience points are awarded. -/
def logTime (taskId : String) (hours : ℚ) (st : Store) : Store :=
  addXP ⌊hours * 2⌋
    { st with
      timeLogged := fun key =>
        if key = taskId then
          some ((match st.timeLogged taskId with
            | none => 0
            | some v => v) + hours)
        else st.timeLogged key }

/-- The statement `if (c && !unlockedBadges.includes(b)) newBadges.push(b)`. -/
def pushBadge (c : Bool) (b : String) (unlockedBadges newBadges : List String) : List String :=
  if c && !(unlockedBadges.contains b) then newBadges ++ [b] else newBadges

/-- The list `newBadges` built by `checkBadges`. -/
def newBadgesOf (st : Store) : List String :=
  let newBadges0 : List String := []
  let newBadges1 := pushBadge (decide (st.xp ≥ 100)) "first-100" st.unlockedBadges newBadges0
  let newBadges2 := pushBadge (decide (st.xp ≥ 500)) "xp-500" st.unlockedBadges newBadges1
  let newBadges3 :=
    pushBadge (decide (st.streak ≥ 7)) "seven-day-streak" st.unlockedBadges newBadges2
  pushBadge (decide (st.completedSprints.length ≥ 5)) "sprint-master" st.unlockedBadges newBadges3

/-- The function `checkBadges`. -/
def checkBadges (st : Store) : Store :=
  let newBadges := newBadgesOf st
  if newBadges.length > 0 then { st with unlockedBadges := st.unlockedBadges ++ newBadges }
  else st

/-! ## Aggregate reporter -/

/-- The method `sort(compare)` of an array: a stable sort that puts `a` before
`b` unless `compare(a, b) > 0`. When `compare` is not a consistent order (a
date that is `NaN`) the order an engine produces is not fixed by the language;
the properties below that speak of order assume valid dates. -/
def jsSort {α : Type} (compare : α → α → JSNum) (xs : List α) : List α :=
  xs.insertionSort (fun a b => JSNum.gt (compare a b) (JSNum.fin 0) = false)

/-- The expression `xs.slice(-n)`: the last `n` elements. -/
def sliceLast {α : Type} (n : Nat) (xs : List α) : List α :=
  xs.drop (xs.length - n)

/-- One element of the list `events` of `getXpProgressionData`; `date` is the
time value of the event, `NaN` for an invalid date. -/
structure XpEvent where
  date : JSNum
  type : String
  xp : Int
  deriving DecidableEq

/-- The `date` field of a point of the series: the literal `Today`, or the
formatted date of a time value. -/
inductive PointDate where
  | today
  | formatted (t : JSNum)
  deriving DecidableEq

/-- One point of the series returned by `getXpProgressionData`. -/
structure XpPoint where
  date : PointDate
  xp : Int
  level : Int
  deriving DecidableEq

/-- The list `events` of `getXpProgressionData` before it is sorted: one event
of 50 points per completed sprint, then one event of 5 points per habit, dated
`lastCompleted` or, when that is `null`, now. -/
def xpEvents (st : Store) (now : Int) : List XpEvent :=
  st.completedSprints.map (fun s =>
      { date := match s.createdAt with
          | none => JSNum.nan
          | some t => JSNum.fin (t : ℚ)
        type := "sprint"
        xp := 50 })
    ++ st.habits.map (fun h =>
      { date := JSNum.fin ((h.lastCompleted.getD now : Int) : ℚ)
        type := "habit"
        xp := 5 })

/-- The `forEach` loop of `getXpProgressionData`: the pair `(currentXp, data)`
after visiting the given events. -/
def xpLoop (events : List XpEvent) (start : Int × List XpPoint) : Int × List XpPoint :=
  events.foldl
    (fun acc event =>
      let currentXp := acc.1 + event.xp
      (currentXp,
        acc.2 ++ [{ date := PointDate.formatted event.date
                    xp := currentXp
                    level := ⌊(currentXp : ℚ) / 500⌋ + 1 }]))
    start

/-- The function `getXpProgressionData`. -/
def getXpProgressionData (st : Store) (now : Int) : List XpPoint :=
  let events :=
    sliceLast 30 (jsSort (fun a b => JSNum.sub a.date b.date) (xpEvents st now))
  let data := (xpLoop events (0, [])).2
  if data.length = 0 then [{ date := PointDate.today, xp := st.xp, level := st.level }]
  else data

/-- The message pushed for no insights. -/
def msgNoSprints : String := "No completed sprints this week yet. Start one to see insights!"

/-- The message for a mean completion of at least 80. -/
def msgAmazing : String := "🔥 Amazing! You're crushing it with 80%+ completion!"

/-- The message for a mean completion of at least 60. -/
def msgGood : String := "✅ Good progress! You're completing most of your goals."

/-- The message for a mean completion of at least 40. -/
def msgModerate : String := "⚠️ Moderate completion. Consider making smaller sprints."

/-- The message for a mean completion below 40. -/
def msgLow : String := "🚨 Low completion. Your sprints might be too ambitious."

/-- The message for a mean of more than 3 postponements. -/
def msgPattern : String :=
  "📋 Pattern: You're postponing tasks frequently. Try breaking them into smaller pieces."

/-- The message for a mean of more than 1 postponement. -/
def msgTip : String := "💡 Tip: Watch out for procrastination patterns. Daily check-ins help!"

/-- The message for a majority of hard sprints. -/
def msgChallenging : String := "⚡ You prefer challenging sprints! Make sure they're achievable."

/-- The function `generateInsights`. -/
def generateInsights (insights : List Insight) : List String :=
  if insights.length = 0 then [msgNoSprints]
  else
    let length := JSNum.fin (insights.length : ℚ)
    let avgCompletion :=
      JSNum.div (insights.foldl (fun sum i => JSNum.add sum i.completionRate) (JSNum.fin 0)) length
    let messages1 :=
      if JSNum.ge avgCompletion (JSNum.fin 80) then [msgAmazing]
      else if JSNum.ge avgCompletion (JSNum.fin 60) then [msgGood]
      else if JSNum.ge avgCompletion (JSNum.fin 40) then [msgModerate]
      else [msgLow]
    let avgPostpones :=
      JSNum.div (insights.foldl (fun sum i => JSNum.add sum i.avgPostponements) (JSNum.fin 0)) length
    let messages2 :=
      if JSNum.gt avgPostpones (JSNum.fin 3) then messages1 ++ [msgPattern]
      else if JSNum.gt avgPostpones (JSNum.fin 1) then messages1 ++ [msgTip]
      else messages1
    let hardSprints :=
      JSNum.fin (((insights.filter (fun i => decide (i.difficulty = "Hard"))).length : ℕ) : ℚ)
    if JSNum.gt hardSprints (JSNum.div length (JSNum.fin 2)) then messages2 ++ [msgChallenging]
    else messages2

/-- The field `stats` of the weekly report; `bestPerformer` is the goal text of
the best sprint, `none` when that sprint has no goal. -/
structure WeeklyStats where
  avgCompletion : JSNum
  avgPostponements : JSNum
  totalHours : JSNum
  sprintsCompleted : Nat
  bestPerformer : Option String
  deriving DecidableEq

/-- The object returned by `generateWeeklyReport`. The field `week`, two dates
formatted for the locale, is not represented. -/
structure WeeklyReport where
  sprints : List Insight
  stats : WeeklyStats
  insights : List String
  deriving DecidableEq

/-- The list `thisWeekSprints` of `generateWeeklyReport`: the completed sprints
whose creation time is not before `weekAgo`, the current time moved back seven
local calendar days. -/
def thisWeekSprints (tz : TimeZone) (now : Int) (st : Store) : List Sprint :=
  let weekAgo := setDatePlus tz now (-7)
  st.completedSprints.filter (fun s =>
    JSNum.ge
      (match s.createdAt with
        | none => JSNum.nan
        | some t => JSNum.fin (t : ℚ))
      (JSNum.fin (weekAgo : ℚ)))

/-- The function `generateWeeklyReport`. -/
def generateWeeklyReport (tz : TimeZone) (now : Int) (st : Store) : WeeklyReport :=
  let insights := (thisWeekSprints tz now st).filterMap (fun s => calculateSprintInsights st (some s))
  let length := JSNum.fin (insights.length : ℚ)
  let avgCompletion :=
    if insights.length > 0 then
      JSNum.round
        (JSNum.div (insights.foldl (fun sum i => JSNum.add sum i.completionRate) (JSNum.fin 0))
          length)
    else JSNum.fin 0
  let avgPostponements :=
    if insights.length > 0 then
      JSNum.div
        (JSNum.round
          (JSNum.mul
            (JSNum.div
              (insights.foldl (fun sum i => JSNum.add sum i.avgPostponements) (JSNum.fin 0))
              length)
            (JSNum.fin 10)))
        (JSNum.fin 10)
    else JSNum.fin 0
  let totalHours := insights.foldl (fun sum i => JSNum.add sum i.hoursLogged) (JSNum.fin 0)
  let sorted :=
    if insights.length > 0 then
      jsSort (fun a b => JSNum.sub b.completionRate a.completionRate) insights
    else insights
  let bestCategory :=
    if insights.length > 0 then sorted.head?.bind (fun i => i.goal)
    else some "N/A"
  { sprints := sorted
    stats :=
      { avgCompletion := avgCompletion
        avgPostponements := avgPostponements
        totalHours := totalHours
        sprintsCompleted := sorted.length
        bestPerformer := bestCategory }
    insights := generateInsights sorted }

/-! ## Risk list -/

/-- The argument `updates` of `updateSprint`: for each field, `none` when the
object has no such key and the new value otherwise. -/
structure SprintUpdates where
  id : Option String := none
  name : Option (Option String) := none
  goal : Option (Option String) := none
  category : Option (Option String) := none
  difficulty : Option (Option String) := none
  startDate : Option Int := none
  endDate : Option Int := none
  createdAt : Option (Option Int) := none
  weeklyTasks : Option (Option (List Task)) := none
  completedTasks : Option (Option (List Nat)) := none
  goalCategories : Option (Option (List GoalCategory)) := none
  privacy : Option (Option Privacy) := none

/-- The object spread of a sprint followed by the spread of `updates`. -/
def applyUpdates (s : Sprint) (updates : SprintUpdates) : Sprint :=
  { id := updates.id.getD s.id
    name := updates.name.getD s.name
    goal := updates.goal.getD s.goal
    category := updates.category.getD s.category
    difficulty := updates.difficulty.getD s.difficulty
    startDate := updates.startDate.getD s.startDate
    endDate := updates.endDate.getD s.endDate
    createdAt := updates.createdAt.getD s.createdAt
    weeklyTasks := updates.weeklyTasks.getD s.weeklyTasks
    completedTasks := updates.completedTasks.getD s.completedTasks
    goalCategories := updates.goalCategories.getD s.goalCategories
    privacy := updates.privacy.getD s.privacy }

/-- The state update of `updateSprint`. -/
def updateSprint (sprintId : String) (updates : SprintUpdates) (prev : List Sprint) :
    List Sprint :=
  prev.map (fun s => if s.id = sprintId then applyUpdates s updates else s)

/-- The assignment `goals[goalName] = value` on an object given by its entries:
an existing key keeps its place, a new key goes last. -/
def setGoal (goalName : String) (value : Bool) : List (String × Bool) → List (String × Bool)
  | [] => [(goalName, value)]
  | (k, v) :: rest =>
    if k = goalName then (k, value) :: rest else (k, v) :: setGoal goalName value rest

/-- The state update of `toggleGoalPrivacy`. -/
def toggleGoalPrivacy (sprintId : String) (goalName : String) (prev : List Sprint) :
    List Sprint :=
  prev.map (fun s =>
    if s.id = sprintId then
      let goals := (s.privacy.bind (fun newPrivacy => newPrivacy.goals)).getD []
      let current := (goals.lookup goalName).getD false
      { s with privacy := some { goals := some (setGoal goalName (!current) goals) } }
    else s)

/-! ## Daily check-in -/

/-- The function `dailyCheckIn`: the returned flag and the state afterwards.
`today` and `lastCheck` are UTC days; `yesterday` is now moved back one local
calendar day and then read as a UTC day. -/
def dailyCheckIn (tz : TimeZone) (now : Int) (st : Store) : Bool × Store :=
  let today := utcDay now
  let lastCheck := st.lastCheckIn.map utcDay
  if lastCheck = some today then (false, st)
  else
    let yesterday := setDatePlus tz now (-1)
    let yesterdayStr := utcDay yesterday
    let streak := if lastCheck = some yesterdayStr then st.streak + 1 else 1
    (true, addXP 25 { st with streak := streak, lastCheckIn := some now })

/-! ## Chart data -/

/-- One element of the list returned by `getCompletionRateData`. -/
structure CompletionPoint where
  name : String
  completion : JSNum
  tasks : JSNum
  total : JSNum
  deriving DecidableEq

/-- The callback of `getCompletionRateData` mapped over the sprints in order.
`s.name.substring(0, 12)` throws a `TypeError` when `name` is missing, which
ends the whole call; the first twelve characters stand for the first twelve
UTF-16 units. -/
def completionPoints (st : Store) : List Sprint → Except String (List CompletionPoint)
  | [] => Except.ok []
  | s :: rest =>
    match calculateSprintInsights st (some s), s.name with
    | some insights, some name =>
      match completionPoints st rest with
      | Except.ok points =>
        Except.ok
          ({ name := name.take 12
             completion := insights.completionRate
             tasks := insights.completedTasks
             total := insights.totalTasks } :: points)
      | Except.error e => Except.error e
    | _, _ => Except.error "TypeError: Cannot read properties of undefined (reading 'substring')"

/-- The function `getCompletionRateData`; an error is the exception thrown. -/
def getCompletionRateData (st : Store) : Except String (List CompletionPoint) :=
  completionPoints st (sliceLast 12 (st.completedSprints ++ st.sprints))

/-! ## Validation and repair of stored sprints -/

/-- A value found in a field of a stored sprint object. A `YYYY-MM-DD` string
is given by its day number and an ISO timestamp by its time value. -/
inductive JSVal where
  | undefined
  | null
  | bool (b : Bool)
  | str (s : String)
  | num (n : Int)
  | dayString (day : Int)
  | isoString (t : Int)
  | array (length : Nat)
  | object
  deriving DecidableEq

/-- Truthiness of a value: `undefined`, `null`, `false`, the empty string and
`0` are falsy. -/
def JSVal.truthy : JSVal → Bool
  | JSVal.undefined => false
  | JSVal.null => false
  | JSVal.bool b => b
  | JSVal.str s => decide (s ≠ "")
  | JSVal.num n => decide (n ≠ 0)
  | _ => true

/-- The function `Array.isArray`. -/
def JSVal.isArray : JSVal → Bool
  | JSVal.array _ => true
  | _ => false

/-- A sprint object as it is stored: for each field `none` when the object has
no such key, and the value under the key otherwise. -/
structure RawSprint where
  id : Option JSVal := none
  name : Option JSVal := none
  goal : Option JSVal := none
  category : Option JSVal := none
  difficulty : Option JSVal := none
  weeklyTasks : Option JSVal := none
  completedTasks : Option JSVal := none
  startDate : Option JSVal := none
  endDate : Option JSVal := none
  createdAt : Option JSVal := none
  privacy : Option JSVal := none
  goalCategories : Option JSVal := none
  deriving DecidableEq

/-- The expression `sprint.field`: `undefined` for a missing key. -/
def readField (field : Option JSVal) : JSVal := field.getD JSVal.undefined

/-- The expression `a || b`. -/
def JSVal.orElse (a b : JSVal) : JSVal := if a.truthy then a else b

/-- The result of `dataValidation.validateSprint`. -/
structure Validation where
  valid : Bool
  errors : List String
  deriving DecidableEq

/-- The statement `if (c) errors.push(message)`. -/
def pushError (c : Bool) (message : String) (errors : List String) : List String :=
  if c then errors ++ [message] else errors

/-- The function `dataValidation.validateSprint`; `none` is a `null` sprint. -/
def validateSprint (sprintArg : Option RawSprint) : Validation :=
  match sprintArg with
  | none => { valid := false, errors := ["Sprint is null"] }
  | some sprint =>
    let errors0 : List String := []
    let errors1 := pushError (!(readField sprint.id).truthy) "Missing id" errors0
    let errors2 := pushError (!(readField sprint.name).truthy) "Missing name" errors1
    let errors3 := pushError (!(readField sprint.goal).truthy) "Missing goal" errors2
    let errors4 := pushError (!(readField sprint.startDate).truthy) "Missing startDate" errors3
    let errors5 := pushError (!(readField sprint.endDate).truthy) "Missing endDate" errors4
    let errors6 :=
      pushError (!(readField sprint.weeklyTasks).isArray) "weeklyTasks not array" errors5
    let errors7 :=
      pushError (!(readField sprint.completedTasks).isArray) "completedTasks not array" errors6
    { valid := decide (errors7.length = 0), errors := errors7 }

/-- A key of the object literal of `repairSprint`: the value computed for the
key, replaced by the value of the spread `...sprint`, which comes last in the
literal, when the sprint has the key. -/
def spreadLast (computed : JSVal) (own : Option JSVal) : JSVal := own.getD computed

/-- The function `dateUtils.getDateString`: the local calendar day of a time
value. -/
def getDateString (tz : TimeZone) (t : Int) : JSVal :=
  JSVal.dayString ((t + tz.offsetAtUTC t) / 86400000)

/-- The function `dataValidation.repairSprint`; `now` is the time value of
`new Date()` and of `Date.now()`. -/
def repairSprint (tz : TimeZone) (now : Int) (sprint : RawSprint) : RawSprint :=
  let sixWeeksLater := now + 42 * 24 * 60 * 60 * 1000
  { id :=
      some (spreadLast
        ((readField sprint.id).orElse (JSVal.str ("sprint-" ++ toString now))) sprint.id)
    name :=
      some (spreadLast
        (((readField sprint.name).orElse (readField sprint.goal)).orElse
          (JSVal.str "Unnamed Sprint")) sprint.name)
    goal := some (spreadLast ((readField sprint.goal).orElse (JSVal.str "No goal")) sprint.goal)
    category :=
      some (spreadLast ((readField sprint.category).orElse (JSVal.str "general")) sprint.category)
    difficulty :=
      some (spreadLast ((readField sprint.difficulty).orElse (JSVal.str "Moderate"))
        sprint.difficulty)
    weeklyTasks :=
      some (spreadLast
        (if (readField sprint.weeklyTasks).isArray then readField sprint.weeklyTasks
          else JSVal.array 0) sprint.weeklyTasks)
    completedTasks :=
      some (spreadLast
        (if (readField sprint.completedTasks).isArray then readField sprint.completedTasks
          else JSVal.array 0) sprint.completedTasks)
    startDate :=
      some (spreadLast ((readField sprint.startDate).orElse (getDateString tz now))
        sprint.startDate)
    endDate :=
      some (spreadLast ((readField sprint.endDate).orElse (getDateString tz sixWeeksLater))
        sprint.endDate)
    createdAt :=
      some (spreadLast ((readField sprint.createdAt).orElse (JSVal.isoString now))
        sprint.createdAt)
    privacy := some (spreadLast ((readField sprint.privacy).orElse JSVal.object) sprint.privacy)
    goalCategories :=
      some (spreadLast ((readField sprint.goalCategories).orElse (JSVal.array 0))
        sprint.goalCategories) }

/-! ## Quantities named by the specification -/

/-- The number of entries of `weeklyTasks`, zero when the field is missing. -/
def numTasks (sprint : Sprint) : ℕ := (sprint.weeklyTasks.getD []).length

/-- The number of entries of `completedTasks`, zero when the field is missing. -/
def numCompleted (sprint : Sprint) : ℕ := (sprint.completedTasks.getD []).length

/-- Rounding to the nearest integer, a tie going up. -/
def roundHalfUp (q : ℚ) : ℤ := ⌊q + 1 / 2⌋

/-- The `postponeCount` stored for task position `i` of a sprint, zero when the
key has no schedule entry. -/
def storedPostponeCount (st : Store) (sprint : Sprint) (i : ℕ) : ℕ :=
  match st.taskSchedules (taskKey sprint.id i) with
  | none => 0
  | some e => e.postponeCount

/-- The hours stored for task position `i` of a sprint, zero when the key has
no entry. -/
def storedHours (st : Store) (sprint : Sprint) (i : ℕ) : ℚ :=
  match st.timeLogged (taskKey sprint.id i) with
  | none => 0
  | some h => h

/-- The number of milliseconds of one day. -/
def msPerDay : ℚ := 86400000

/-- Spec: `totalTasks = max(1, len(weeklyTasks))`. -/
def specTotalTasks (sprint : Sprint) : ℕ := max 1 (numTasks sprint)

/-- Spec: `currentProgress = 100 * completedTasks / totalTasks`. -/
def specCurrentProgress (sprint : Sprint) : ℚ :=
  100 * (numCompleted sprint : ℚ) / (specTotalTasks sprint : ℚ)

/-- Spec: `totalDays = ceil((endDate - startDate) / 1 day)`. -/
def specTotalDays (sprint : Sprint) : ℤ :=
  ⌈((sprint.endDate : ℚ) - (sprint.startDate : ℚ)) / msPerDay⌉

/-- Spec: `elapsedDays = ceil((now - startDate) / 1 day)`. -/
def specElapsedDays (now : Int) (sprint : Sprint) : ℤ :=
  ⌈((now : ℚ) - (sprint.startDate : ℚ)) / msPerDay⌉

/-- Spec: `remainingDays = max(1, totalDays - elapsedDays)`. -/
def specRemainingDays (now : Int) (sprint : Sprint) : ℤ :=
  max 1 (specTotalDays sprint - specElapsedDays now sprint)

/-- Spec: `velocity = completedTasks / elapsedDays` if `elapsedDays > 0` else `0`. -/
def specVelocity (now : Int) (sprint : Sprint) : ℚ :=
  if 0 < specElapsedDays now sprint then
    (numCompleted sprint : ℚ) / (specElapsedDays now sprint : ℚ)
  else 0

/-- Spec: `predictedDaysRemaining = tasksRemaining / velocity` if `velocity > 0`
else `remainingDays`. -/
def specPredictedDaysRemaining (now : Int) (sprint : Sprint) : ℚ :=
  if 0 < specVelocity now sprint then
    ((specTotalTasks sprint : ℚ) - (numCompleted sprint : ℚ)) / specVelocity now sprint
  else (specRemainingDays now sprint : ℚ)

/-- Spec: `completionRate = round(100 * completedTasks / totalTasks)` if
`totalTasks > 0` else `0`. -/
def specCompletionRate (sprint : Sprint) : ℚ :=
  if 0 < numTasks sprint then
    ((roundHalfUp (100 * (numCompleted sprint : ℚ) / (numTasks sprint : ℚ)) : ℤ) : ℚ)
  else 0

/-- Spec: the mean `completionRate` of the completed sprints sharing the
category, or `50` if none exist. -/
def specCategoryRate (st : Store) (category : Option String) : ℚ :=
  let rates :=
    (st.completedSprints.filter (fun s => decide (s.category = category))).map specCompletionRate
  if rates.length = 0 then 50 else rates.sum / (rates.length : ℚ)

/-- Spec: the additive score, base 50, before it is clamped. -/
def specScore (st : Store) (now : Int) (sprint : Sprint) : ℚ :=
  50 + min 30 (specCurrentProgress sprint / 100 * 30)
    + min 20 (specVelocity now sprint * 20)
    + min 20 ((specRemainingDays now sprint : ℚ) / 7 * 20)
    + specCategoryRate st sprint.category / 100 * 10
    + min 10 ((st.streak : ℚ) / 30 * 10)

/-- Spec: the score clamped to the interval from 0 to 100. -/
def specClamped (st : Store) (now : Int) (sprint : Sprint) : ℚ :=
  min 100 (max 0 (specScore st now sprint))

/-- The list holding `f` when `c` holds and nothing otherwise. -/
def flagIf (c : Prop) [Decidable c] (f : RiskFlag) : List RiskFlag :=
  if c then [f] else []

/-- Spec: the seven risk flags in their fixed order, each present exactly when
its condition holds on the values before the output is rounded. -/
def specRiskFlags (st : Store) (now : Int) (sprint : Sprint) : List RiskFlag :=
  flagIf (specVelocity now sprint = 0) flagNoProgress
    ++ flagIf (specVelocity now sprint < 1 / 2 ∧ 3 < specElapsedDays now sprint) flagLowVelocity
    ++ flagIf (specPredictedDaysRemaining now sprint
          > 3 / 2 * (specRemainingDays now sprint : ℚ)) flagFallingBehind
    ++ flagIf (specClamped st now sprint < 30) flagHighRisk
    ++ flagIf (sprint.difficulty = some "Hard" ∧ specCurrentProgress sprint < 30
          ∧ (specElapsedDays now sprint : ℚ) > 3 / 10 * (specTotalDays sprint : ℚ)) flagHardSprint
    ++ flagIf (specVelocity now sprint > 3 / 2) flagExcellentPace
    ++ flagIf (specCurrentProgress sprint > 80) flagAlmostThere

/-- Spec: every index in `completedTasks` is a valid index into `weeklyTasks`. -/
def validIndices (sprint : Sprint) : Prop :=
  ∀ i ∈ sprint.completedTasks.getD [], i < numTasks sprint

/-- The `postponeCount` stored for a key, zero when the key has no entry. -/
def postponeCountAt (taskSchedules : String → Option ScheduleEntry) (key : String) : Nat :=
  match taskSchedules key with
  | none => 0
  | some e => e.postponeCount

/-- The cumulative hours stored for a key, zero when the key has no entry. -/
def hoursAt (st : Store) (key : String) : ℚ :=
  match st.timeLogged key with
  | none => 0
  | some v => v

/-- Spec: the points of the running cumulative sum over the kept events,
starting from the sum `start`. -/
def runningPoints (start : Int) : List XpEvent → List XpPoint
  | [] => []
  | e :: es =>
    { date := PointDate.formatted e.date
      xp := start + e.xp
      level := ⌊((start + e.xp : ℤ) : ℚ) / 500⌋ + 1 } :: runningPoints (start + e.xp) es

/-- Spec: `totalPostponements`, the sum of the stored postpone counts. -/
def specTotalPostponements (st : Store) (sprint : Sprint) : ℕ :=
  ∑ i in Finset.range (numTasks sprint), storedPostponeCount st sprint i

/-- Spec: `avgPostponements = round(totalPostponements / totalTasks, 1 decimal)`,
0 if `totalTasks` is 0. -/
def specAvgPostponements (st : Store) (sprint : Sprint) : ℚ :=
  if 0 < numTasks sprint then
    ((roundHalfUp ((specTotalPostponements st sprint : ℚ) / (numTasks sprint : ℚ) * 10) : ℤ) : ℚ)
      / 10
  else 0

/-- Spec: `hoursLogged`, the sum of the stored hours over the task positions. -/
def specHours (st : Store) (sprint : Sprint) : ℚ :=
  ∑ i in Finset.range (numTasks sprint), storedHours st sprint i

/-- Spec: the insight of a sprint, every number finite. -/
def specInsight (st : Store) (sprint : Sprint) : Insight :=
  { sprintId := sprint.id
    name := sprint.name
    goal := sprint.goal
    completionRate := JSNum.fin (specCompletionRate sprint)
    totalTasks := JSNum.fin (numTasks sprint : ℚ)
    completedTasks := JSNum.fin (numCompleted sprint : ℚ)
    totalPostponements := JSNum.fin (specTotalPostponements st sprint : ℚ)
    avgPostponements := JSNum.fin (specAvgPostponements st sprint)
    maxPostpones :=
      JSNum.fin (((Finset.range (numTasks sprint)).sup (storedPostponeCount st sprint) : ℕ) : ℚ)
    hoursLogged := JSNum.fin (specHours st sprint)
    difficulty :=
      if 20 < specHours st sprint then "Hard"
      else if 10 < specHours st sprint then "Medium"
      else "Easy"
    createdDate := sprint.createdAt
    categories := sprint.goalCategories.getD [] }

/-- A sprint of ten tasks, three of them completed, that starts at time 0 and
ends thirty days later. -/
def demoSprint : Sprint :=
  { id := "1700000000000"
    name := some "Learn Lean"
    goal := some "learn to code"
    category := some "learning"
    difficulty := some "Hard"
    startDate := 0
    endDate := 30 * 86400000
    createdAt := some 0
    weeklyTasks := some (List.replicate 10 {})
    completedTasks := some [0, 1, 2] }

/-- A completed sprint of the same category: four tasks, three completed. -/
def demoCompleted : Sprint :=
  { id := "1690000000000"
    category := some "learning"
    weeklyTasks := some (List.replicate 4 {})
    completedTasks := some [0, 1, 3] }

/-- A store holding the two example sprints, with a streak of four days. -/
def demoStore : Store :=
  { sprints := [demoSprint]
    completedSprints := [demoCompleted]
    streak := 4 }

/-- Ten days after the start of `demoSprint`. -/
def demoNow : Int := 10 * 86400000

/-- A schedule in which task 0 of the example sprint is planned for
2024-03-10 (day 19792), the day the clocks go forward in US Eastern time. -/
def marchSchedules : String → Option ScheduleEntry :=
  fun key => if key = "1700000000000-0" then some { date := 19792, postponeCount := 0 } else none

/-- A schedule in which task 0 of the example sprint was postponed three times. -/
def postponedSchedules : String → Option ScheduleEntry :=
  fun key => if key = "1700000000000-0" then some { date := 19792, postponeCount := 3 } else none

/-- A sprint that started on 2024-01-01 (day 19723) and has no schedule entries. -/
def winterSprint : Sprint :=
  { id := "1704067200000"
    startDate := 1704067200000
    endDate := 1707696000000
    weeklyTasks := some (List.replicate 6 {})
    completedTasks := some [] }

/-- Noon UTC on 2024-06-20 (day 19894). -/
def juneNow : Int := 1718884800000

/-- A store with two hours logged on task 0 of the example sprint, 500
experience points and level 2. -/
def loggedStore : Store :=
  { sprints := [demoSprint]
    timeLogged := fun key => if key = "1700000000000-0" then some 2 else none
    xp := 500
    level := 2 }

/-- A store with a completed sprint created on 2024-01-01. -/
def winterStore : Store :=
  { completedSprints := [{ winterSprint with createdAt := some 1704067200000 }] }

/-- A store with 600 experience points, a streak of seven days and one badge
already unlocked. -/
def badgeStore : Store :=
  { xp := 600
    level := 2
    streak := 7
    unlockedBadges := ["xp-500"] }

/-- A sprint of 201 tasks of which only task 0 is completed. -/
def largeSprint : Sprint :=
  { id := "1705000000000"
    startDate := 1704067200000
    endDate := 1707696000000
    weeklyTasks := some (List.replicate 201 {})
    completedTasks := some [0] }

/-- A stored sprint whose `id` is present and empty; every other checked field
is in order. -/
def emptyIdSprint : RawSprint :=
  { id := some (JSVal.str "")
    name := some (JSVal.str "Read more")
    goal := some (JSVal.str "read a book a month")
    weeklyTasks := some (JSVal.array 6)
    completedTasks := some (JSVal.array 0)
    startDate := some (JSVal.dayString 19723)
    endDate := some (JSVal.dayString 19765) }

/-- A stored sprint that has none of the keys. -/
def bareRawSprint : RawSprint := {}

/-- A store with a streak of five days whose last check-in was on 2024-03-09
at 23:30 UTC (18:30 in US Eastern time). -/
def streakStore : Store :=
  { streak := 5
    lastCheckIn := some 1710027000000 }

/-- The time 2024-03-10 at 23:30 UTC (19:30 in US Eastern time). -/
def marchNow : Int := 1710113400000

/-- A store whose only sprint has six tasks and no `name`, `category` or
`goalCategories`. -/
def namelessStore : Store :=
  { sprints := [winterSprint] }

/-! ## Lemmas on JavaScript numbers -/

@[simp] theorem add_fin (a b : ℚ) : JSNum.add (JSNum.fin a) (JSNum.fin b) = JSNum.fin (a + b) :=
  rfl

@[simp] theorem sub_fin (a b : ℚ) : JSNum.sub (JSNum.fin a) (JSNum.fin b) = JSNum.fin (a - b) := by
  simp [JSNum.sub, JSNum.neg, JSNum.add, sub_eq_add_neg]

@[simp] theorem mul_fin (a b : ℚ) : JSNum.mul (JSNum.fin a) (JSNum.fin b) = JSNum.fin (a * b) :=
  rfl

theorem div_fin (a : ℚ) {b : ℚ} (h : b ≠ 0) :
    JSNum.div (JSNum.fin a) (JSNum.fin b) = JSNum.fin (a / b) := by
  simp [JSNum.div, h]

@[simp] theorem lt_fin (a b : ℚ) : JSNum.lt (JSNum.fin a) (JSNum.fin b) = decide (a < b) :=
  rfl

@[simp] theorem gt_fin (a b : ℚ) : JSNum.gt (JSNum.fin a) (JSNum.fin b) = decide (b < a) :=
  rfl

@[simp] theorem strictEq_fin (a b : ℚ) :
    JSNum.strictEq (JSNum.fin a) (JSNum.fin b) = decide (a = b) :=
  rfl

@[simp] theorem min_fin (a b : ℚ) : JSNum.min (JSNum.fin a) (JSNum.fin b) = JSNum.fin (min a b) := by
  by_cases h : a < b
  · simp [JSNum.min, h, min_eq_left h.le]
  · simp [JSNum.min, h, min_eq_right (not_lt.mp h)]

@[simp] theorem max_fin (a b : ℚ) : JSNum.max (JSNum.fin a) (JSNum.fin b) = JSNum.fin (max a b) := by
  by_cases h : a < b
  · simp [JSNum.max, h, max_eq_right h.le]
  · simp [JSNum.max, h, max_eq_left (not_lt.mp h)]

@[simp] theorem ceil_fin (a : ℚ) : JSNum.ceil (JSNum.fin a) = JSNum.fin ((⌈a⌉ : ℤ) : ℚ) :=
  rfl

@[simp] theorem round_fin (a : ℚ) :
    JSNum.round (JSNum.fin a) = JSNum.fin ((roundHalfUp a : ℤ) : ℚ) :=
  rfl

@[simp] theorem orElse_fin_zero (a : ℚ) :
    JSNum.orElse (JSNum.fin a) (JSNum.fin 0) = JSNum.fin a := by
  by_cases h : a = 0 <;> simp [JSNum.orElse, JSNum.truthy, h]

theorem length_or_zero {α : Type} (xs : Option (List α)) :
    JSNum.orElseOpt (lengthOf xs) (JSNum.fin 0) = JSNum.fin ((xs.getD []).length : ℚ) := by
  cases xs <;> simp [JSNum.orElseOpt, lengthOf]

theorem length_or_one {α : Type} (xs : Option (List α)) :
    JSNum.orElseOpt (lengthOf xs) (JSNum.fin 1)
      = JSNum.fin ((max 1 (xs.getD []).length : ℕ) : ℚ) := by
  cases xs with
  | none => simp [JSNum.orElseOpt, lengthOf]
  | some l =>
    cases l with
    | nil => simp [JSNum.orElseOpt, lengthOf, JSNum.orElse, JSNum.truthy]
    | cons x t =>
      have h : ((t.length : ℚ) + 1) ≠ 0 := by positivity
      simp [JSNum.orElseOpt, lengthOf, JSNum.orElse, JSNum.truthy, h]

/-! ## Insight calculator: properties -/

theorem postponeCountOf_eq (st : Store) (sprint : Sprint) (i : ℕ) :
    postponeCountOf st (taskKey sprint.id i)
      = JSNum.fin (storedPostponeCount st sprint i : ℚ) := by
  unfold postponeCountOf storedPostponeCount
  cases st.taskSchedules (taskKey sprint.id i) <;> simp [JSNum.orElseOpt]

theorem timeLoggedOf_eq (st : Store) (sprint : Sprint) (i : ℕ) :
    timeLoggedOf st (taskKey sprint.id i) = JSNum.fin (storedHours st sprint i) := by
  unfold timeLoggedOf storedHours
  cases st.timeLogged (taskKey sprint.id i) <;> simp [JSNum.orElseOpt]

theorem postponement_fold (st : Store) (sprint : Sprint) (n : ℕ) :
    (List.range n).foldl
      (fun acc idx =>
        (JSNum.add acc.1 (postponeCountOf st (taskKey sprint.id idx)),
          JSNum.max acc.2 (postponeCountOf st (taskKey sprint.id idx))))
      (JSNum.fin 0, JSNum.fin 0)
    = (JSNum.fin ((∑ i in Finset.range n, storedPostponeCount st sprint i : ℕ) : ℚ),
        JSNum.fin (((Finset.range n).sup (storedPostponeCount st sprint) : ℕ) : ℚ)) := by
  induction n with
  | zero => simp
  | succ k ih =>
    rw [List.range_succ, List.foldl_append, ih]
    simp [postponeCountOf_eq, Finset.sum_range_succ, Finset.range_succ, Finset.sup_insert,
      max_comm]
    exact add_comm _ _

theorem postponementLoop_eq (st : Store) (sprint : Sprint) :
    postponementLoop st sprint
      = (JSNum.fin ((∑ i in Finset.range (numTasks sprint), storedPostponeCount st sprint i : ℕ) : ℚ),
          JSNum.fin (((Finset.range (numTasks sprint)).sup (storedPostponeCount st sprint) : ℕ) : ℚ)) := by
  unfold postponementLoop numTasks
  cases h : sprint.weeklyTasks with
  | none => simp
  | some tasks => simpa using postponement_fold st sprint tasks.length

theorem hours_fold (st : Store) (sprint : Sprint) (n : ℕ) :
    (List.range n).foldl
      (fun sum idx => JSNum.add sum (timeLoggedOf st (taskKey sprint.id idx))) (JSNum.fin 0)
    = JSNum.fin (∑ i in Finset.range n, storedHours st sprint i) := by
  induction n with
  | zero => simp
  | succ k ih =>
    rw [List.range_succ, List.foldl_append, ih]
    simp [timeLoggedOf_eq, Finset.sum_range_succ]

theorem hoursLoggedOf_eq (st : Store) (sprint : Sprint) :
    hoursLoggedOf st sprint
      = JSNum.fin (∑ i in Finset.range (numTasks sprint), storedHours st sprint i) := by
  unfold hoursLoggedOf numTasks
  cases h : sprint.weeklyTasks with
  | none => simp [JSNum.orElseOpt]
  | some tasks => simp [JSNum.orElseOpt, hours_fold]

theorem numTasks_pos_cast {sprint : Sprint} (h : 0 < numTasks sprint) :
    ((numTasks sprint : ℕ) : ℚ) ≠ 0 := by
  exact_mod_cast h.ne'

/-- C8. `totalPostponements` is the sum and `maxPostpones` the maximum (zero for
no tasks) of the stored postpone counts over the task positions, and
`avgPostponements` is `round(totalPostponements / totalTasks * 10) / 10` when
there is at least one task and `0` otherwise. -/
theorem calculateSprintInsights_postponements (st : Store) (sprint : Sprint) :
    ∃ ins, calculateSprintInsights st (some sprint) = some ins ∧
      ins.totalTasks = JSNum.fin (numTasks sprint : ℚ) ∧
      ins.totalPostponements
        = JSNum.fin ((∑ i in Finset.range (numTasks sprint), storedPostponeCount st sprint i : ℕ) : ℚ) ∧
      ins.maxPostpones
        = JSNum.fin (((Finset.range (numTasks sprint)).sup (storedPostponeCount st sprint) : ℕ) : ℚ) ∧
      (0 < numTasks sprint →
        ins.avgPostponements
          = JSNum.fin
              (((roundHalfUp
                  (((∑ i in Finset.range (numTasks sprint), storedPostponeCount st sprint i : ℕ) : ℚ)
                    / (numTasks sprint : ℚ) * 10) : ℤ) : ℚ) / 10)) ∧
      (numTasks sprint = 0 → ins.avgPostponements = JSNum.fin 0) := by
  refine ⟨_, rfl, ?_, ?_, ?_, ?_, ?_⟩
  · simp [length_or_zero, numTasks]
  · simp [postponementLoop_eq]
  · simp [postponementLoop_eq]
  · intro h
    have hq : (0 : ℚ) < (numTasks sprint : ℚ) := by exact_mod_cast h
    have h10 : (10 : ℚ) ≠ 0 := by norm_num
    have hlen : JSNum.orElseOpt (lengthOf sprint.weeklyTasks) (JSNum.fin 0)
        = JSNum.fin (numTasks sprint : ℚ) := by simp [length_or_zero, numTasks]
    simp only [hlen, postponementLoop_eq, gt_fin, hq, decide_True, if_true,
      div_fin _ hq.ne', mul_fin, round_fin, div_fin _ h10]
  · intro h
    have hlen : JSNum.orElseOpt (lengthOf sprint.weeklyTasks) (JSNum.fin 0)
        = JSNum.fin 0 := by
      rw [length_or_zero]
      simp only [numTasks] at h
      simp [h]
    simp [hlen]

theorem guarded_div (a b c : ℚ) :
    (if JSNum.gt (JSNum.fin b) (JSNum.fin 0) then JSNum.div (JSNum.fin a) (JSNum.fin b)
      else JSNum.fin c)
    = JSNum.fin (if 0 < b then a / b else c) := by
  by_cases h : 0 < b
  · simp [h, div_fin _ h.ne']
  · simp [h]

theorem foldl_add_fin (l : List ℚ) (a : ℚ) :
    (l.map JSNum.fin).foldl JSNum.add (JSNum.fin a) = JSNum.fin (a + l.sum) := by
  induction l generalizing a with
  | nil => simp
  | cons x t ih => simp [ih, add_assoc]

theorem insight_completionRate_eq (st : Store) (s : Sprint) :
    (match calculateSprintInsights st (some s) with
      | some insights => insights.completionRate
      | none => JSNum.nan)
    = JSNum.fin (specCompletionRate s) := by
  have hlen : JSNum.orElseOpt (lengthOf s.weeklyTasks) (JSNum.fin 0)
      = JSNum.fin (numTasks s : ℚ) := by simp [length_or_zero, numTasks]
  have hc : JSNum.orElseOpt (lengthOf s.completedTasks) (JSNum.fin 0)
      = JSNum.fin (numCompleted s : ℚ) := by simp [length_or_zero, numCompleted]
  simp only [calculateSprintInsights, hlen, hc, specCompletionRate]
  by_cases h : 0 < numTasks s
  · have hq : (0 : ℚ) < (numTasks s : ℚ) := by exact_mod_cast h
    simp only [gt_fin, hq, decide_True, if_true, div_fin _ hq.ne', mul_fin, round_fin, h]
    congr 3
    ring
  · have hq : ¬ (0 : ℚ) < (numTasks s : ℚ) := by exact_mod_cast h
    simp [hq, h]

theorem calculateCategorySuccessRate_eq (st : Store) (category : Option String) :
    calculateCategorySuccessRate st category = JSNum.fin (specCategoryRate st category) := by
  unfold calculateCategorySuccessRate specCategoryRate
  by_cases h0 : st.completedSprints.length = 0
  · have : st.completedSprints = [] := List.length_eq_zero.mp h0
    simp [this]
  · by_cases h1 : (st.completedSprints.filter (fun s => decide (s.category = category))).length = 0
    · simp [h0, h1]
    · have hq : (((st.completedSprints.filter
          (fun s => decide (s.category = category))).length : ℕ) : ℚ) ≠ 0 := by
        exact_mod_cast h1
      simp only [h0, h1, if_false, insight_completionRate_eq, List.length_map]
      have hmap : ∀ l : List Sprint,
          l.map (fun s => JSNum.fin (specCompletionRate s))
            = (l.map specCompletionRate).map JSNum.fin := by
        intro l
        simp
      rw [hmap, foldl_add_fin, div_fin _ hq]
      simp

theorem pushIf_eq (c : Bool) (f : RiskFlag) (l : List RiskFlag) :
    pushIf c f l = l ++ flagIf (c = true) f := by
  cases c <;> simp [pushIf, flagIf]

theorem flagIf_congr {c d : Prop} [Decidable c] [Decidable d] (h : c ↔ d) (f : RiskFlag) :
    flagIf c f = flagIf d f := by
  by_cases hc : c
  · simp [flagIf, hc, h.mp hc]
  · simp [flagIf, hc, mt h.mpr hc]

theorem specTotalTasks_ne_zero (sprint : Sprint) : ((specTotalTasks sprint : ℕ) : ℚ) ≠ 0 := by
  have h : 0 < specTotalTasks sprint := lt_of_lt_of_le Nat.one_pos (le_max_left _ _)
  exact_mod_cast h.ne'

theorem msPerDay_ne_zero : msPerDay ≠ 0 := by
  norm_num [msPerDay]

theorem forecastLocals_eq (st : Store) (now : Int) (sprint : Sprint) :
    forecastLocals st now sprint =
      { totalTasks := JSNum.fin (specTotalTasks sprint : ℚ)
        completedTasks := JSNum.fin (numCompleted sprint : ℚ)
        currentProgress := JSNum.fin (specCurrentProgress sprint)
        totalDays := JSNum.fin (specTotalDays sprint : ℚ)
        elapsedDays := JSNum.fin (specElapsedDays now sprint : ℚ)
        remainingDays := JSNum.fin (specRemainingDays now sprint : ℚ)
        velocity := JSNum.fin (specVelocity now sprint)
        tasksRemaining := JSNum.fin ((specTotalTasks sprint : ℚ) - (numCompleted sprint : ℚ))
        predictedDaysRemaining := JSNum.fin (specPredictedDaysRemaining now sprint)
        categorySuccessRate := JSNum.fin (specCategoryRate st sprint.category)
        successProbability := JSNum.fin (specClamped st now sprint)
        riskFlags := specRiskFlags st now sprint } := by
  have hT : JSNum.orElseOpt (lengthOf sprint.weeklyTasks) (JSNum.fin 1)
      = JSNum.fin (specTotalTasks sprint : ℚ) := length_or_one sprint.weeklyTasks
  have hC : JSNum.orElseOpt (lengthOf sprint.completedTasks) (JSNum.fin 0)
      = JSNum.fin (numCompleted sprint : ℚ) := length_or_zero sprint.completedTasks
  have hms : JSNum.fin (1000 * 60 * 60 * 24) = JSNum.fin msPerDay := by
    norm_num [msPerDay]
  have hP : JSNum.mul (JSNum.div (JSNum.fin (numCompleted sprint : ℚ))
        (JSNum.fin (specTotalTasks sprint : ℚ))) (JSNum.fin 100)
      = JSNum.fin (specCurrentProgress sprint) := by
    rw [div_fin _ (specTotalTasks_ne_zero sprint), mul_fin, specCurrentProgress]
    congr 1
    ring
  have hTD : JSNum.ceil (JSNum.div (JSNum.sub (JSNum.fin (sprint.endDate : ℚ))
        (JSNum.fin (sprint.startDate : ℚ))) (JSNum.fin msPerDay))
      = JSNum.fin (specTotalDays sprint : ℚ) := by
    rw [sub_fin, div_fin _ msPerDay_ne_zero, ceil_fin, specTotalDays]
  have hED : JSNum.ceil (JSNum.div (JSNum.sub (JSNum.fin (now : ℚ))
        (JSNum.fin (sprint.startDate : ℚ))) (JSNum.fin msPerDay))
      = JSNum.fin (specElapsedDays now sprint : ℚ) := by
    rw [sub_fin, div_fin _ msPerDay_ne_zero, ceil_fin, specElapsedDays]
  have hRD : JSNum.max (JSNum.fin 1) (JSNum.sub (JSNum.fin (specTotalDays sprint : ℚ))
        (JSNum.fin (specElapsedDays now sprint : ℚ)))
      = JSNum.fin (specRemainingDays now sprint : ℚ) := by
    rw [sub_fin, max_fin, specRemainingDays]
    push_cast
    rfl
  have hV : (if JSNum.gt (JSNum.fin (specElapsedDays now sprint : ℚ)) (JSNum.fin 0) then
        JSNum.div (JSNum.fin (numCompleted sprint : ℚ)) (JSNum.fin (specElapsedDays now sprint : ℚ))
      else JSNum.fin 0)
      = JSNum.fin (specVelocity now sprint) := by
    rw [guarded_div, specVelocity]
    simp only [Int.cast_pos]
  have hPD : (if JSNum.gt (JSNum.fin (specVelocity now sprint)) (JSNum.fin 0) then
        JSNum.div (JSNum.fin ((specTotalTasks sprint : ℚ) - (numCompleted sprint : ℚ)))
          (JSNum.fin (specVelocity now sprint))
      else JSNum.fin (specRemainingDays now sprint : ℚ))
      = JSNum.fin (specPredictedDaysRemaining now sprint) := by
    rw [guarded_div, specPredictedDaysRemaining]
  have h100 : (100 : ℚ) ≠ 0 := by norm_num
  have h1 : (1 : ℚ) ≠ 0 := by norm_num
  have h7 : (7 : ℚ) ≠ 0 := by norm_num
  have h30 : (30 : ℚ) ≠ 0 := by norm_num
  have hS : JSNum.min (JSNum.fin 100) (JSNum.max (JSNum.fin 0)
        (JSNum.add (JSNum.add (JSNum.add (JSNum.add (JSNum.add (JSNum.fin 50)
          (JSNum.min (JSNum.fin 30) (JSNum.mul (JSNum.div (JSNum.fin (specCurrentProgress sprint))
            (JSNum.fin 100)) (JSNum.fin 30))))
          (JSNum.min (JSNum.fin 20) (JSNum.mul (JSNum.div (JSNum.fin (specVelocity now sprint))
            (JSNum.fin 1)) (JSNum.fin 20))))
          (JSNum.min (JSNum.fin 20) (JSNum.mul (JSNum.div
            (JSNum.fin (specRemainingDays now sprint : ℚ)) (JSNum.fin 7)) (JSNum.fin 20))))
          (JSNum.mul (JSNum.div (JSNum.fin (specCategoryRate st sprint.category))
            (JSNum.fin 100)) (JSNum.fin 10)))
          (JSNum.min (JSNum.fin 10) (JSNum.mul (JSNum.div (JSNum.fin (st.streak : ℚ))
            (JSNum.fin 30)) (JSNum.fin 10)))))
      = JSNum.fin (specClamped st now sprint) := by
    simp only [div_fin _ h100, div_fin _ h1, div_fin _ h7, div_fin _ h30, mul_fin, min_fin,
      add_fin, max_fin, specClamped, specScore, div_one]
  have hTR : JSNum.sub (JSNum.fin (specTotalTasks sprint : ℚ)) (JSNum.fin (numCompleted sprint : ℚ))
      = JSNum.fin ((specTotalTasks sprint : ℚ) - (numCompleted sprint : ℚ)) := sub_fin _ _
  simp only [forecastLocals, hT, hC, hms]
  simp only [hP, hTD, hED]
  simp only [hRD]
  simp only [hV]
  simp only [hTR, hPD]
  simp only [calculateCategorySuccessRate_eq, hS]
  simp only [pushIf_eq, mul_fin, gt_fin, lt_fin, strictEq_fin, List.nil_append, specRiskFlags,
    Bool.and_eq_true, decide_eq_true_eq]
  have e2 : ((3 : ℚ) < (specElapsedDays now sprint : ℚ)) ↔ (3 < specElapsedDays now sprint) := by
    exact_mod_cast Iff.rfl
  have e3 : ((specRemainingDays now sprint : ℚ) * (3 / 2) < specPredictedDaysRemaining now sprint)
      ↔ (specPredictedDaysRemaining now sprint > 3 / 2 * (specRemainingDays now sprint : ℚ)) := by
    rw [mul_comm, gt_iff_lt]
  have e5 : ((specTotalDays sprint : ℚ) * (3 / 10) < (specElapsedDays now sprint : ℚ))
      ↔ ((specElapsedDays now sprint : ℚ) > 3 / 10 * (specTotalDays sprint : ℚ)) := by
    rw [mul_comm, gt_iff_lt]
  rw [flagIf_congr (and_congr_right' e2), flagIf_congr e3,
    flagIf_congr (and_assoc.trans (and_congr_right' (and_congr_right' e5)))]

theorem predictSprintCompletion_eq (st : Store) (now : Int) (sprintId : String) (sprint : Sprint)
    (h : st.sprints.find? (fun s => decide (s.id = sprintId)) = some sprint) :
    predictSprintCompletion st now sprintId =
      some
        { currentProgress := JSNum.fin ((roundHalfUp (specCurrentProgress sprint) : ℤ) : ℚ)
          velocity := JSNum.toFixed2 (JSNum.fin (specVelocity now sprint))
          predictedDaysRemaining :=
            JSNum.fin ((roundHalfUp (specPredictedDaysRemaining now sprint) : ℤ) : ℚ)
          successProbability := JSNum.fin ((roundHalfUp (specClamped st now sprint) : ℤ) : ℚ)
          riskFlags := specRiskFlags st now sprint
          elapsedDays := JSNum.fin (specElapsedDays now sprint : ℚ)
          totalDays := JSNum.fin (specTotalDays sprint : ℚ)
          remainingDays := JSNum.fin (specRemainingDays now sprint : ℚ) } := by
  unfold predictSprintCompletion
  rw [h]
  simp only [forecastLocals_eq, round_fin]

theorem find_of_mem (sprints : List Sprint) (sprint : Sprint) (h : sprint ∈ sprints) :
    ∃ found, sprints.find? (fun s => decide (s.id = sprint.id)) = some found := by
  cases hf : sprints.find? (fun s => decide (s.id = sprint.id)) with
  | some found => exact ⟨found, rfl⟩
  | none =>
    have := List.find?_eq_none.mp hf sprint h
    simp at this

theorem mem_flagIf (c : Prop) [Decidable c] (f g : RiskFlag) : g ∈ flagIf c f ↔ c ∧ g = f := by
  by_cases hc : c <;> simp [flagIf, hc]

/-- C5. In the body of `predictSprintCompletion` no division has a zero divisor:
`totalTasks` is at least 1 (it is 1 for an empty or missing `weeklyTasks`),
`velocity` is `completedTasks / elapsedDays` when `elapsedDays > 0` and `0`
otherwise, `predictedDaysRemaining` is `(totalTasks - completedTasks) / velocity`
when `velocity > 0` and `remainingDays` otherwise, and the three quotients are
finite numbers. -/
theorem predictSprintCompletion_no_zero_divisor (st : Store) (now : Int) (sprint : Sprint) :
    ∃ (totalTasks : ℕ) (elapsedDays remainingDays : ℤ) (velocity : ℚ),
      (forecastLocals st now sprint).totalTasks = JSNum.fin (totalTasks : ℚ) ∧
      1 ≤ totalTasks ∧
      (numTasks sprint = 0 → totalTasks = 1) ∧
      (0 < numTasks sprint → totalTasks = numTasks sprint) ∧
      (forecastLocals st now sprint).elapsedDays = JSNum.fin (elapsedDays : ℚ) ∧
      (forecastLocals st now sprint).remainingDays = JSNum.fin (remainingDays : ℚ) ∧
      (forecastLocals st now sprint).currentProgress
        = JSNum.fin ((numCompleted sprint : ℚ) / (totalTasks : ℚ) * 100) ∧
      (forecastLocals st now sprint).velocity = JSNum.fin velocity ∧
      velocity = (if 0 < elapsedDays then (numCompleted sprint : ℚ) / (elapsedDays : ℚ) else 0) ∧
      (forecastLocals st now sprint).predictedDaysRemaining
        = JSNum.fin (if 0 < velocity then ((totalTasks : ℚ) - (numCompleted sprint : ℚ)) / velocity
            else (remainingDays : ℚ)) := by
  refine ⟨specTotalTasks sprint, specElapsedDays now sprint, specRemainingDays now sprint,
    specVelocity now sprint, ?_, ?_, ?_, ?_, ?_, ?_, ?_, ?_, rfl, ?_⟩
  · rw [forecastLocals_eq]
  · exact le_max_left _ _
  · intro h0
    simp [specTotalTasks, h0]
  · intro hpos
    exact max_eq_right hpos
  · rw [forecastLocals_eq]
  · rw [forecastLocals_eq]
  · rw [forecastLocals_eq]
    simp only [specCurrentProgress]
    congr 1
    ring
  · rw [forecastLocals_eq]
  · rw [forecastLocals_eq]
    rfl

theorem ceil_days (a b : ℤ) (n : ℤ) (h : a - b = n * 86400000) :
    ⌈((a : ℚ) - (b : ℚ)) / msPerDay⌉ = n := by
  have hq : ((a : ℚ) - (b : ℚ)) = (n : ℚ) * 86400000 := by exact_mod_cast h
  rw [hq, msPerDay, mul_div_assoc, div_self (by norm_num), mul_one]
  exact Int.ceil_intCast n

/-- C4. A sprint with 10 weekly tasks, `completedTasks = [0, 1, 2]`, a start
exactly 10 days before now and an end 20 days after now gets
`currentProgress = 30`, `elapsedDays = 10`, `velocity = 0.3`, `totalDays = 30`,
`remainingDays = 20` and `predictedDaysRemaining = 23`; its flags contain the
low-velocity warning and not the falling-behind warning. -/
theorem predictSprintCompletion_example (st : Store) (now : Int) (sprintId : String)
    (sprint : Sprint) (tasks : List Task)
    (h : st.sprints.find? (fun s => decide (s.id = sprintId)) = some sprint)
    (hw : sprint.weeklyTasks = some tasks) (hlen : tasks.length = 10)
    (hc : sprint.completedTasks = some [0, 1, 2])
    (hs : sprint.startDate = now - 10 * 86400000)
    (he : sprint.endDate = now + 20 * 86400000) :
    ∃ p, predictSprintCompletion st now sprintId = some p ∧
      p.currentProgress = JSNum.fin 30 ∧
      p.elapsedDays = JSNum.fin 10 ∧
      p.velocity = JSNum.fin (3 / 10) ∧
      p.totalDays = JSNum.fin 30 ∧
      p.remainingDays = JSNum.fin 20 ∧
      p.predictedDaysRemaining = JSNum.fin ((roundHalfUp (7 / (3 / 10)) : ℤ) : ℚ) ∧
      p.predictedDaysRemaining = JSNum.fin 23 ∧
      flagLowVelocity ∈ p.riskFlags ∧
      flagFallingBehind ∉ p.riskFlags := by
  have hn : numTasks sprint = 10 := by simp [numTasks, hw, hlen]
  have hk : numCompleted sprint = 3 := by simp [numCompleted, hc]
  have hT : specTotalTasks sprint = 10 := by simp [specTotalTasks, hn]
  have hP : specCurrentProgress sprint = 30 := by
    simp only [specCurrentProgress, hk, hT]
    norm_num
  have hTD : specTotalDays sprint = 30 := ceil_days _ _ 30 (by rw [hs, he]; ring)
  have hED : specElapsedDays now sprint = 10 := ceil_days _ _ 10 (by rw [hs]; ring)
  have hRD : specRemainingDays now sprint = 20 := by
    simp [specRemainingDays, hTD, hED]
  have hV : specVelocity now sprint = 3 / 10 := by
    simp only [specVelocity, hED, hk]
    norm_num
  have hPD : specPredictedDaysRemaining now sprint = 7 / (3 / 10) := by
    simp only [specPredictedDaysRemaining, hV, hT, hk, hRD]
    norm_num
  have hr30 : roundHalfUp 30 = 30 := by
    rw [roundHalfUp, Int.floor_eq_iff]
    norm_num
  have hr23 : roundHalfUp (7 / (3 / 10)) = 23 := by
    rw [roundHalfUp, Int.floor_eq_iff]
    norm_num
  have hfix : JSNum.toFixed2 (JSNum.fin (3 / 10)) = JSNum.fin (3 / 10) := by
    have hfl : ⌊(3 / 10 : ℚ) * 100 + 1 / 2⌋ = 30 := by
      rw [Int.floor_eq_iff]
      norm_num
    simp only [JSNum.toFixed2, hfl]
    norm_num
  refine ⟨_, predictSprintCompletion_eq st now sprintId sprint h, ?_, ?_, ?_, ?_, ?_, ?_, ?_, ?_, ?_⟩
  · simp [hP, hr30]
  · simp [hED]
  · simp only [hV, hfix]
  · simp [hTD]
  · simp [hRD]
  · simp only [hPD]
  · simp [hPD, hr23]
  · simp only [specRiskFlags, List.mem_append, mem_flagIf, hV, hED]
    norm_num
  · simp only [specRiskFlags, List.mem_append, mem_flagIf, hV, hED, hPD, hRD]
    simp [flagNoProgress, flagLowVelocity, flagFallingBehind, flagHighRisk, flagHardSprint,
      flagExcellentPace, flagAlmostThere]
    norm_num

/-! ## Task completion: properties -/

theorem indexOf_spec (xs : List Nat) (x : Nat) :
    (x ∉ xs → indexOf xs x = -1) ∧
      (x ∈ xs → 0 ≤ indexOf xs x ∧ xs.eraseIdx (indexOf xs x).toNat = xs.erase x) := by
  induction xs with
  | nil => simp [indexOf]
  | cons y ys ih =>
    constructor
    · intro hx
      have hy : y ≠ x := fun e => hx (by simp [e])
      have hys : x ∉ ys := fun e => hx (List.mem_cons_of_mem _ e)
      simp [indexOf, hy, ih.1 hys]
    · intro hx
      by_cases hy : y = x
      · subst hy
        simp [indexOf]
      · have hys : x ∈ ys := by
          rcases List.mem_cons.mp hx with e | e
          · exact absurd e.symm hy
          · exact e
        obtain ⟨h0, he⟩ := ih.2 hys
        have hne : indexOf ys x ≠ -1 := by omega
        have hnat : (indexOf ys x + 1).toNat = (indexOf ys x).toNat + 1 := by omega
        have hbeq : (y == x) = false := by simpa using hy
        refine ⟨?_, ?_⟩
        · simp only [indexOf, hy, hne, if_false]
          omega
        · simp only [indexOf, hy, hne, if_false, hnat, List.eraseIdx_cons_succ, he,
            List.erase_cons, hbeq]
          simp

theorem toggleCompleted_eq (completedTasks : Option (List Nat)) (taskIndex : Nat) :
    toggleCompleted completedTasks taskIndex =
      if taskIndex ∈ completedTasks.getD [] then (completedTasks.getD []).erase taskIndex
      else completedTasks.getD [] ++ [taskIndex] := by
  unfold toggleCompleted
  by_cases hm : taskIndex ∈ completedTasks.getD []
  · obtain ⟨h0, he⟩ := (indexOf_spec _ _).2 hm
    have hgt : indexOf (completedTasks.getD []) taskIndex > -1 := by omega
    simp only [hgt, hm, if_true, he]
  · have hneg := (indexOf_spec _ _).1 hm
    simp [hneg, hm]

theorem toggleTaskComplete_getElem (sprintId : String) (taskIndex : Nat) (prev : List Sprint)
    (k : Nat) (s : Sprint) (hk : prev[k]? = some s) (hid : s.id = sprintId) :
    (toggleTaskComplete sprintId taskIndex prev)[k]?
      = some { s with completedTasks := some (toggleCompleted s.completedTasks taskIndex) } := by
  simp [toggleTaskComplete, hk, hid]

/-- C10. For a sprint whose `completedTasks` has no duplicates, after
`toggleTaskComplete` at its id and a task index `i` the list still has no
duplicates and contains `i` exactly when it did not before; after a second
toggle of the same index the list holds the same indices as originally. -/
theorem toggleTaskComplete_toggle (prev : List Sprint) (k : Nat) (s : Sprint) (i : Nat)
    (hk : prev[k]? = some s) (hnd : (s.completedTasks.getD []).Nodup) :
    ∃ s1 l1 s2 l2,
      (toggleTaskComplete s.id i prev)[k]? = some s1 ∧
      s1.completedTasks = some l1 ∧
      l1.Nodup ∧
      (i ∈ l1 ↔ i ∉ s.completedTasks.getD []) ∧
      (toggleTaskComplete s.id i (toggleTaskComplete s.id i prev))[k]? = some s2 ∧
      s2.completedTasks = some l2 ∧
      l2.Nodup ∧
      (∀ j, j ∈ l2 ↔ j ∈ s.completedTasks.getD []) := by
  have h1 := toggleTaskComplete_getElem s.id i prev k s hk rfl
  have h2 := toggleTaskComplete_getElem s.id i (toggleTaskComplete s.id i prev) k _ h1 rfl
  refine ⟨_, _, _, _, h1, rfl, ?_, ?_, h2, rfl, ?_, ?_⟩
  · rw [toggleCompleted_eq]
    by_cases hm : i ∈ s.completedTasks.getD []
    · simpa [hm] using hnd.erase i
    · simp only [hm, if_false]
      exact List.Nodup.append hnd (List.nodup_singleton i) (by simpa using hm)
  · rw [toggleCompleted_eq]
    by_cases hm : i ∈ s.completedTasks.getD []
    · simp [hm, hnd.mem_erase_iff]
    · simp [hm]
  · simp only [toggleCompleted_eq, Option.getD_some]
    by_cases hm : i ∈ s.completedTasks.getD []
    · have hni : i ∉ (s.completedTasks.getD []).erase i := by simp [hnd.mem_erase_iff]
      simp only [hm, if_true, hni, if_false]
      exact List.Nodup.append (hnd.erase i) (List.nodup_singleton i) (by simpa using hni)
    · simp only [hm, if_false, List.mem_append, List.mem_singleton, or_true, if_true]
      rw [List.erase_append_right _ hm]
      simpa using hnd
  · intro j
    simp only [toggleCompleted_eq, Option.getD_some]
    by_cases hm : i ∈ s.completedTasks.getD []
    · have hni : i ∉ (s.completedTasks.getD []).erase i := by simp [hnd.mem_erase_iff]
      simp only [hm, if_true, hni, if_false, List.mem_append, List.mem_singleton,
        hnd.mem_erase_iff]
      constructor
      · rintro (⟨_, hj⟩ | rfl)
        · exact hj
        · exact hm
      · intro hj
        by_cases hji : j = i
        · exact Or.inr hji
        · exact Or.inl ⟨hji, hj⟩
    · simp only [hm, if_false, List.mem_append, List.mem_singleton, or_true, if_true]
      rw [List.erase_append_right _ hm]
      simp

/-- C11, as stated, fails: toggling position 10 of the example sprint, which
has ten tasks and valid completed indices, stores the invalid index 10. -/
theorem toggle_validIndices_counterexample :
    ¬ ∀ (prev : List Sprint) (sprintId : String) (taskIndex : Nat),
        (∀ s ∈ prev, validIndices s) →
        ∀ s ∈ toggleTaskComplete sprintId taskIndex prev, validIndices s := by
  intro h
  have h1 := h [demoSprint] demoSprint.id 10
    (by simp [validIndices, demoSprint, numTasks])
    { demoSprint with completedTasks := some [0, 1, 2, 10] }
    (by simp [toggleTaskComplete, toggleCompleted, indexOf, demoSprint])
  have h2 := h1 10 (by simp)
  simp [numTasks, demoSprint] at h2

/-- C11, amended. `toggleTaskComplete` keeps every index in `completedTasks` a
valid index into `weeklyTasks` when the toggled index is a valid index of the
sprints with the given id, as it is for every call the task list makes. -/
theorem toggle_validIndices (prev : List Sprint) (sprintId : String) (taskIndex : Nat)
    (hinv : ∀ s ∈ prev, validIndices s)
    (hidx : ∀ s ∈ prev, s.id = sprintId → taskIndex < numTasks s) :
    ∀ s ∈ toggleTaskComplete sprintId taskIndex prev, validIndices s := by
  intro s hs
  obtain ⟨s0, hs0, rfl⟩ := List.mem_map.mp hs
  by_cases hid : s0.id = sprintId
  · simp only [hid, if_true]
    intro i hi
    show i < numTasks s0
    simp only [Option.getD_some, toggleCompleted_eq] at hi
    by_cases hm : taskIndex ∈ s0.completedTasks.getD []
    · simp only [hm, if_true] at hi
      exact hinv s0 hs0 i (List.mem_of_mem_erase hi)
    · simp only [hm, if_false, List.mem_append, List.mem_singleton] at hi
      rcases hi with hi | rfl
      · exact hinv s0 hs0 i hi
      · exact hidx s0 hs0 hid
  · simp only [hid, if_false]
    exact hinv s0 hs0

/-! ## Schedule updates: properties -/

theorem utcDay_parseDay_succ (d : Int) : utcDay (parseDay d + 86400000) = d + 1 := by
  unfold utcDay parseDay
  omega

/-- In a zone whose offset never changes, `postponeTask` moves an existing entry
to the next calendar day, adds one to its `postponeCount` and leaves every
other key unchanged. -/
theorem postponeTask_fixed_offset (tz : TimeZone) (offset : Int)
    (hu : tz.offsetAtUTC = fun _ => offset) (hl : tz.offsetAtLocal = fun _ => offset)
    (now : Int) (taskSchedules : String → Option ScheduleEntry) (taskId : String)
    (e : ScheduleEntry) (he : taskSchedules taskId = some e) :
    postponeTask tz now taskSchedules taskId taskId
        = some { date := e.date + 1, postponeCount := e.postponeCount + 1 } ∧
      ∀ key, key ≠ taskId → postponeTask tz now taskSchedules taskId key = taskSchedules key := by
  constructor
  · have hd : utcDay (setDatePlus tz (parseDay e.date) 1) = e.date + 1 := by
      rw [← utcDay_parseDay_succ]
      simp only [setDatePlus, hu, hl]
      congr 1
      ring
    simp [postponeTask, scheduleTask, he, hd]
  · intro key hk
    simp [postponeTask, scheduleTask, hk]

/-- C12, the failing input. In US Eastern time, postponing a task planned for
2024-03-10 stores `postponeCount` 1 and the same date, 2024-03-10 (day 19792):
the local day that `setDate` adds is 23 hours long, so the UTC date printed by
`toISOString` does not move. -/
theorem postponeTask_dst_evaluation :
    postponeTask usEastern2024 juneNow marchSchedules "1700000000000-0" "1700000000000-0"
      = some { date := 19792, postponeCount := 1 } := by
  simp [postponeTask, scheduleTask, marchSchedules, setDatePlus, parseDay, utcDay, usEastern2024]

/-- C13, as stated, fails: dropping a task that was postponed three times on
another day of the calendar stores `postponeCount` 0. -/
theorem reschedule_postponeCount_counterexample :
    ¬ ∀ (tz : TimeZone) (draggedTask : Option String) (day : Int)
        (prev : String → Option ScheduleEntry) (key : String),
        postponeCountAt (handleDayDrop tz draggedTask day prev) key ≥ postponeCountAt prev key := by
  intro h
  have h1 := h utcZone (some "1700000000000-0") 19800 postponedSchedules "1700000000000-0"
  simp [handleDayDrop, scheduleTask, postponedSchedules, postponeCountAt] at h1

/-- C13, amended. `postponeTask` raises the `postponeCount` of its key by one
and so lowers the count of no key; `scheduleTask(id, date)`, the call made for
an explicit reschedule such as the calendar drop, sets the count of its key to
0; both leave the entry of every other key unchanged. -/
theorem postponeCount_after_update (tz : TimeZone) (now : Int)
    (prev : String → Option ScheduleEntry) (taskId : String) (day : Int) :
    postponeCountAt (postponeTask tz now prev taskId) taskId = postponeCountAt prev taskId + 1 ∧
      (∀ key, postponeCountAt (postponeTask tz now prev taskId) key ≥ postponeCountAt prev key) ∧
      (∀ key, key ≠ taskId → postponeTask tz now prev taskId key = prev key) ∧
      postponeCountAt (handleDayDrop tz (some taskId) day prev) taskId = 0 ∧
      (∀ date, postponeCountAt (scheduleTask taskId date none prev) taskId = 0) ∧
      (∀ key, key ≠ taskId → handleDayDrop tz (some taskId) day prev key = prev key) ∧
      (∀ key date, key ≠ taskId → scheduleTask taskId date none prev key = prev key) := by
  have hkey : postponeCountAt (postponeTask tz now prev taskId) taskId
      = postponeCountAt prev taskId + 1 := by
    cases h : prev taskId <;> simp [postponeTask, scheduleTask, postponeCountAt, h]
  have hother : ∀ key, key ≠ taskId → postponeTask tz now prev taskId key = prev key := by
    intro key hk
    simp [postponeTask, scheduleTask, hk]
  refine ⟨hkey, ?_, hother, ?_, ?_, ?_, ?_⟩
  · intro key
    by_cases hk : key = taskId
    · subst hk
      omega
    · simp [postponeCountAt, hother key hk]
  · simp [handleDayDrop, scheduleTask, postponeCountAt]
  · intro date
    simp [scheduleTask, postponeCountAt]
  · intro key hk
    simp [handleDayDrop, scheduleTask, hk]
  · intro key date hk
    simp [scheduleTask, hk]

theorem addXP_timeLogged (amount : Int) (st : Store) :
    (addXP amount st).timeLogged = st.timeLogged := by
  simp only [addXP]
  split_ifs <;> rfl

theorem addXP_xp (amount : Int) (st : Store) : (addXP amount st).xp = st.xp + amount := by
  simp only [addXP]
  split_ifs <;> rfl

theorem hoursAt_logTime (taskId : String) (hours : ℚ) (st : Store) :
    hoursAt (logTime taskId hours st) taskId = hoursAt st taskId + hours := by
  simp only [hoursAt, logTime, addXP_timeLogged, if_true]

/-- C15, as stated, fails: logging -3 hours on a key that holds 2 hours stores
-1, which is lower than the previous value. -/
theorem logTime_monotone_counterexample :
    ¬ ∀ (st : Store) (taskId : String) (hours : ℚ),
        hoursAt (logTime taskId hours st) taskId = hoursAt st taskId + hours ∧
        hoursAt (logTime taskId hours st) taskId ≥ hoursAt st taskId := by
  intro h
  have h1 := (h loggedStore "1700000000000-0" (-3)).2
  rw [hoursAt_logTime] at h1
  linarith

/-- C15, amended. For `hours >= 0` the cumulative hours stored for the key
after `logTime` are the previous value (0 if absent) plus `hours`, never lower
than the previous value, and every other key is unchanged. -/
theorem logTime_spec (st : Store) (taskId : String) (hours : ℚ) (h : 0 ≤ hours) :
    hoursAt (logTime taskId hours st) taskId = hoursAt st taskId + hours ∧
      hoursAt (logTime taskId hours st) taskId ≥ hoursAt st taskId ∧
      ∀ key, key ≠ taskId → (logTime taskId hours st).timeLogged key = st.timeLogged key := by
  refine ⟨hoursAt_logTime taskId hours st, ?_, ?_⟩
  · rw [hoursAt_logTime]
    linarith
  · intro key hk
    simp [logTime, addXP_timeLogged, hk]

/-- C16. From a state whose `level` is `floor(xp / 500) + 1`, `addXP` with a
non-negative amount gives `xp + amount`, which is not lower than `xp`, and the
level `floor(new xp / 500) + 1`; reaching 499 gives level 1 and reaching 500
gives level 2. -/
theorem addXP_level (st : Store) (amount : Int)
    (hl : st.level = ⌊(st.xp : ℚ) / 500⌋ + 1) (ha : 0 ≤ amount) :
    (addXP amount st).xp = st.xp + amount ∧
      st.xp ≤ (addXP amount st).xp ∧
      (addXP amount st).level = ⌊((addXP amount st).xp : ℚ) / 500⌋ + 1 ∧
      (st.xp + amount = 499 → (addXP amount st).level = 1) ∧
      (st.xp + amount = 500 → (addXP amount st).level = 2) := by
  have hxp := addXP_xp amount st
  have hmono : ⌊(st.xp : ℚ) / 500⌋ ≤ ⌊((st.xp + amount : ℤ) : ℚ) / 500⌋ := by
    apply Int.floor_mono
    have : (st.xp : ℚ) ≤ ((st.xp + amount : ℤ) : ℚ) := by exact_mod_cast (by omega : st.xp ≤ st.xp + amount)
    linarith
  have hlevel : (addXP amount st).level = ⌊((st.xp + amount : ℤ) : ℚ) / 500⌋ + 1 := by
    simp only [addXP]
    split_ifs with hgt
    · rfl
    · show st.level = _
      simp only [gt_iff_lt, not_lt] at hgt
      omega
  refine ⟨hxp, by omega, by rw [hxp, hlevel], ?_, ?_⟩
  · intro h499
    rw [hlevel, h499]
    have : ⌊((499 : ℤ) : ℚ) / 500⌋ = 0 := by
      rw [Int.floor_eq_iff]
      norm_num
    omega
  · intro h500
    rw [hlevel, h500]
    have : ⌊((500 : ℤ) : ℚ) / 500⌋ = 1 := by
      rw [Int.floor_eq_iff]
      norm_num
    omega

theorem mem_pushBadge (c : Bool) (b : String) (unlocked acc : List String) (x : String) :
    x ∈ pushBadge c b unlocked acc ↔ x ∈ acc ∨ (x = b ∧ c = true ∧ b ∉ unlocked) := by
  unfold pushBadge
  by_cases hc : c = true <;> by_cases hb : b ∈ unlocked <;> simp [hc, hb]

theorem mem_newBadgesOf (st : Store) (x : String) :
    x ∈ newBadgesOf st ↔
      x ∉ st.unlockedBadges ∧
        ((x = "first-100" ∧ st.xp ≥ 100) ∨ (x = "xp-500" ∧ st.xp ≥ 500)
          ∨ (x = "seven-day-streak" ∧ st.streak ≥ 7)
          ∨ (x = "sprint-master" ∧ st.completedSprints.length ≥ 5)) := by
  simp only [newBadgesOf, mem_pushBadge, List.not_mem_nil, false_or, decide_eq_true_eq]
  constructor
  · rintro (((⟨rfl, h, hn⟩ | ⟨rfl, h, hn⟩) | ⟨rfl, h, hn⟩) | ⟨rfl, h, hn⟩)
    · exact ⟨hn, Or.inl ⟨rfl, h⟩⟩
    · exact ⟨hn, Or.inr (Or.inl ⟨rfl, h⟩)⟩
    · exact ⟨hn, Or.inr (Or.inr (Or.inl ⟨rfl, h⟩))⟩
    · exact ⟨hn, Or.inr (Or.inr (Or.inr ⟨rfl, h⟩))⟩
  · rintro ⟨hn, (⟨rfl, h⟩ | ⟨rfl, h⟩ | ⟨rfl, h⟩ | ⟨rfl, h⟩)⟩
    · exact Or.inl (Or.inl (Or.inl ⟨rfl, h, hn⟩))
    · exact Or.inl (Or.inl (Or.inr ⟨rfl, h, hn⟩))
    · exact Or.inl (Or.inr ⟨rfl, h, hn⟩)
    · exact Or.inr ⟨rfl, h, hn⟩

theorem pushBadge_sublist (c : Bool) (b : String) (unlocked acc rest : List String)
    (h : acc.Sublist rest) : (pushBadge c b unlocked acc).Sublist (rest ++ [b]) := by
  unfold pushBadge
  split_ifs
  · exact List.Sublist.append h (List.Sublist.refl _)
  · exact h.trans (List.sublist_append_left _ _)

theorem newBadgesOf_nodup (st : Store) : (newBadgesOf st).Nodup := by
  have hsub : (newBadgesOf st).Sublist
      ([] ++ ["first-100"] ++ ["xp-500"] ++ ["seven-day-streak"] ++ ["sprint-master"]) := by
    unfold newBadgesOf
    exact pushBadge_sublist _ _ _ _ _ (pushBadge_sublist _ _ _ _ _
      (pushBadge_sublist _ _ _ _ _ (pushBadge_sublist _ _ _ _ _ (List.Sublist.refl _))))
  exact List.Nodup.sublist hsub (by decide)

theorem checkBadges_unlocked (st : Store) :
    (checkBadges st).unlockedBadges = st.unlockedBadges ++ newBadgesOf st := by
  unfold checkBadges
  by_cases h : (newBadgesOf st).length > 0
  · simp [h]
  · have : newBadgesOf st = [] := List.length_eq_zero.mp (by omega)
    simp [this]

theorem checkBadges_fields (st : Store) :
    (checkBadges st).xp = st.xp ∧ (checkBadges st).streak = st.streak ∧
      (checkBadges st).completedSprints = st.completedSprints := by
  simp only [checkBadges]
  split_ifs <;> exact ⟨rfl, rfl, rfl⟩

/-- C19. For a state whose `unlockedBadges` has no duplicates, `checkBadges`
appends to the old list, the new list has no duplicates, the badges appended
are exactly the badges not yet unlocked whose threshold holds, and a second
call appends nothing. -/
theorem checkBadges_spec (st : Store) (h : st.unlockedBadges.Nodup) :
    ∃ appended,
      (checkBadges st).unlockedBadges = st.unlockedBadges ++ appended ∧
      (checkBadges st).unlockedBadges.Nodup ∧
      (∀ b, b ∈ appended ↔
        b ∉ st.unlockedBadges ∧
          ((b = "first-100" ∧ st.xp ≥ 100) ∨ (b = "xp-500" ∧ st.xp ≥ 500)
            ∨ (b = "seven-day-streak" ∧ st.streak ≥ 7)
            ∨ (b = "sprint-master" ∧ st.completedSprints.length ≥ 5))) ∧
      (checkBadges (checkBadges st)).unlockedBadges = (checkBadges st).unlockedBadges := by
  refine ⟨newBadgesOf st, checkBadges_unlocked st, ?_, mem_newBadgesOf st, ?_⟩
  · rw [checkBadges_unlocked]
    refine List.Nodup.append h (newBadgesOf_nodup st) ?_
    intro b hb hnew
    exact ((mem_newBadgesOf st b).mp hnew).1 hb
  · have hempty : newBadgesOf (checkBadges st) = [] := by
      apply List.eq_nil_iff_forall_not_mem.mpr
      intro b hb
      obtain ⟨hnot, hth⟩ := (mem_newBadgesOf _ b).mp hb
      obtain ⟨hx, hs, hc⟩ := checkBadges_fields st
      rw [hx, hs, hc] at hth
      rw [checkBadges_unlocked] at hnot
      exact hnot (List.mem_append_right _
        ((mem_newBadgesOf st b).mpr ⟨fun hm => hnot (List.mem_append_left _ hm), hth⟩))
    rw [checkBadges_unlocked (checkBadges st), hempty, List.append_nil]

/-! ## Aggregate reporter: properties -/

theorem xpLoop_eq (events : List XpEvent) (start : Int) (data : List XpPoint) :
    xpLoop events (start, data)
      = (start + (events.map (fun e => e.xp)).sum, data ++ runningPoints start events) := by
  induction events generalizing start data with
  | nil => simp [xpLoop, runningPoints]
  | cons e es ih =>
    have hstep : xpLoop (e :: es) (start, data)
        = xpLoop es (start + e.xp,
            data ++ [{ date := PointDate.formatted e.date
                       xp := start + e.xp
                       level := ⌊((start + e.xp : ℤ) : ℚ) / 500⌋ + 1 }]) := rfl
    rw [hstep, ih]
    simp [runningPoints, add_assoc]

theorem runningPoints_length (start : Int) (events : List XpEvent) :
    (runningPoints start events).length = events.length := by
  induction events generalizing start with
  | nil => rfl
  | cons e es ih => simp [runningPoints, ih]

theorem runningPoints_mem (start : Int) (events : List XpEvent) (p : XpPoint)
    (h : p ∈ runningPoints start events) :
    p.date ≠ PointDate.today ∧ p.level = ⌊(p.xp : ℚ) / 500⌋ + 1 := by
  induction events generalizing start with
  | nil => simp [runningPoints] at h
  | cons e es ih =>
    simp only [runningPoints, List.mem_cons] at h
    rcases h with rfl | h
    · exact ⟨by simp, rfl⟩
    · exact ih _ h

theorem sliceLast_length_le {α : Type} (n : Nat) (xs : List α) : (sliceLast n xs).length ≤ n := by
  simp only [sliceLast, List.length_drop]
  omega

theorem getXpProgressionData_eq (st : Store) (now : Int) :
    getXpProgressionData st now =
      if sliceLast 30 (jsSort (fun a b => JSNum.sub a.date b.date) (xpEvents st now)) = [] then
        [{ date := PointDate.today, xp := st.xp, level := st.level }]
      else
        runningPoints 0
          (sliceLast 30 (jsSort (fun a b => JSNum.sub a.date b.date) (xpEvents st now))) := by
  simp only [getXpProgressionData, xpLoop_eq, List.nil_append, runningPoints_length,
    List.length_eq_zero]

theorem kept_eq_nil_iff (st : Store) (now : Int) :
    sliceLast 30 (jsSort (fun a b => JSNum.sub a.date b.date) (xpEvents st now)) = []
      ↔ st.completedSprints = [] ∧ st.habits = [] := by
  rw [← List.length_eq_zero]
  simp only [sliceLast, List.length_drop, jsSort, List.length_insertionSort, xpEvents,
    List.length_append, List.length_map]
  constructor
  · intro h
    constructor <;> apply List.length_eq_zero.mp <;> omega
  · rintro ⟨h1, h2⟩
    simp [h1, h2]

/-- C17, as stated, fails on the fallback point: after `logTime` with -1 hours
from 500 points and level 2 the store holds 498 points and level 2, and the
series is the single point `Today` with level 2, while `floor(498 / 500) + 1`
is 1. -/
theorem xpProgression_level_counterexample :
    ¬ ∀ (st : Store) (now : Int),
        (getXpProgressionData st now).length ≤ 30 ∧
        ∀ p ∈ getXpProgressionData st now, p.level = ⌊(p.xp : ℚ) / 500⌋ + 1 := by
  intro h
  have hxp : (logTime "1700000000000-0" (-1) loggedStore).xp = 498 := by
    simp [logTime, addXP, loggedStore]
    norm_num
  have hlv : (logTime "1700000000000-0" (-1) loggedStore).level = 2 := by
    have hfl : ⌊((500 + ⌊(-1 : ℚ) * 2⌋ : ℤ) : ℚ) / 500⌋ = 0 := by
      have : ⌊(-1 : ℚ) * 2⌋ = -2 := by norm_num
      rw [this, Int.floor_eq_iff]
      norm_num
    simp only [logTime, addXP, loggedStore, hfl]
    simp
  have hdata : getXpProgressionData (logTime "1700000000000-0" (-1) loggedStore) juneNow
      = [{ date := PointDate.today, xp := 498, level := 2 }] := by
    rw [getXpProgressionData_eq, if_pos, hxp, hlv]
    rw [kept_eq_nil_iff]
    simp only [logTime, addXP, loggedStore]
    split_ifs <;> exact ⟨rfl, rfl⟩
  have h2 := (h _ juneNow).2 _ (by rw [hdata]; exact List.mem_singleton.mpr rfl)
  have hfl : ⌊((498 : ℤ) : ℚ) / 500⌋ = 0 := by
    rw [Int.floor_eq_iff]
    norm_num
  simp only [hfl] at h2
  omega

/-- C17, amended. The series has at most 30 points; every computed point has
`level = floor(xp / 500) + 1`, so 499 gives level 1 and 500 gives level 2; the
fallback point `Today` carries `xp` and `level` of the store as they are, and
so satisfies the relation whenever the store does. -/
theorem xpProgression_levels (st : Store) (now : Int) :
    (getXpProgressionData st now).length ≤ 30 ∧
      (∀ p ∈ getXpProgressionData st now, p.date ≠ PointDate.today →
        p.level = ⌊(p.xp : ℚ) / 500⌋ + 1 ∧ (p.xp = 499 → p.level = 1)
          ∧ (p.xp = 500 → p.level = 2)) ∧
      (∀ p ∈ getXpProgressionData st now, p.date = PointDate.today →
        p.xp = st.xp ∧ p.level = st.level) ∧
      (st.level = ⌊(st.xp : ℚ) / 500⌋ + 1 →
        ∀ p ∈ getXpProgressionData st now, p.level = ⌊(p.xp : ℚ) / 500⌋ + 1) := by
  rw [getXpProgressionData_eq]
  by_cases hnil : sliceLast 30 (jsSort (fun a b => JSNum.sub a.date b.date) (xpEvents st now)) = []
  · simp only [hnil, if_true, List.length_singleton, List.mem_singleton]
    refine ⟨by omega, ?_, ?_, ?_⟩
    · rintro p rfl hp
      exact absurd rfl hp
    · rintro p rfl _
      exact ⟨rfl, rfl⟩
    · rintro hl p rfl
      exact hl
  · simp only [hnil, if_false, runningPoints_length]
    refine ⟨sliceLast_length_le 30 _, ?_, ?_, ?_⟩
    · intro p hp _
      have hlevel := (runningPoints_mem _ _ p hp).2
      refine ⟨hlevel, ?_, ?_⟩
      · intro h499
        rw [hlevel, h499]
        have : ⌊((499 : ℤ) : ℚ) / 500⌋ = 0 := by
          rw [Int.floor_eq_iff]
          norm_num
        omega
      · intro h500
        rw [hlevel, h500]
        have : ⌊((500 : ℤ) : ℚ) / 500⌋ = 1 := by
          rw [Int.floor_eq_iff]
          norm_num
        omega
    · intro p hp htoday
      exact absurd htoday (runningPoints_mem _ _ p hp).1
    · intro _ p hp
      exact (runningPoints_mem _ _ p hp).2

theorem ge_fin (a b : ℚ) : JSNum.ge (JSNum.fin a) (JSNum.fin b) = decide (b ≤ a) := by
  by_cases h : a < b
  · simp [JSNum.ge, h, not_le.mpr h]
  · simp [JSNum.ge, h, not_lt.mp h]

theorem thisWeekSprints_eq_nil (tz : TimeZone) (now : Int) (st : Store)
    (h : ∀ s ∈ st.completedSprints, ∀ t, s.createdAt = some t → t < setDatePlus tz now (-7)) :
    thisWeekSprints tz now st = [] := by
  unfold thisWeekSprints
  apply List.filter_eq_nil_iff.mpr
  intro s hs
  cases hc : s.createdAt with
  | none => simp [JSNum.ge]
  | some t =>
    have hlt : (t : ℚ) < (setDatePlus tz now (-7) : ℚ) := by exact_mod_cast h s hs t hc
    simp [ge_fin, not_le.mpr hlt]

/-- C20. When no completed sprint was created within the trailing seven days,
`generateWeeklyReport` returns the statistics `avgCompletion = 0`,
`avgPostponements = 0`, `totalHours = 0`, `sprintsCompleted = 0` and exactly one
insight, the message that there are no completed sprints. -/
theorem generateWeeklyReport_empty (tz : TimeZone) (now : Int) (st : Store)
    (h : ∀ s ∈ st.completedSprints, ∀ t, s.createdAt = some t → t < setDatePlus tz now (-7)) :
    (generateWeeklyReport tz now st).stats.avgCompletion = JSNum.fin 0 ∧
      (generateWeeklyReport tz now st).stats.avgPostponements = JSNum.fin 0 ∧
      (generateWeeklyReport tz now st).stats.totalHours = JSNum.fin 0 ∧
      (generateWeeklyReport tz now st).stats.sprintsCompleted = 0 ∧
      (generateWeeklyReport tz now st).insights = [msgNoSprints] ∧
      (generateWeeklyReport tz now st).insights.length = 1 := by
  have hnil := thisWeekSprints_eq_nil tz now st h
  simp [generateWeeklyReport, hnil, generateInsights]

/-! ## Category success rate: properties -/

theorem roundHalfUp_nonneg {q : ℚ} (h : 0 ≤ q) : 0 ≤ roundHalfUp q := by
  unfold roundHalfUp
  exact Int.floor_nonneg.mpr (by linarith)

theorem length_le_of_nodup_lt (l : List Nat) (t : Nat) (hnd : l.Nodup) (hv : ∀ i ∈ l, i < t) :
    l.length ≤ t := by
  have hsub : l.toFinset ⊆ Finset.range t := by
    intro i hi
    exact Finset.mem_range.mpr (hv i (List.mem_toFinset.mp hi))
  have hcard := Finset.card_le_card hsub
  rwa [List.toFinset_card_of_nodup hnd, Finset.card_range] at hcard

theorem all_mem_iff_length_eq (l : List Nat) (t : Nat) (hnd : l.Nodup) (hv : ∀ i ∈ l, i < t) :
    (∀ i, i < t → i ∈ l) ↔ l.length = t := by
  have hsub : l.toFinset ⊆ Finset.range t := by
    intro i hi
    exact Finset.mem_range.mpr (hv i (List.mem_toFinset.mp hi))
  constructor
  · intro hall
    have heq : l.toFinset = Finset.range t := by
      apply Finset.Subset.antisymm hsub
      intro i hi
      exact List.mem_toFinset.mpr (hall i (Finset.mem_range.mp hi))
    have := congrArg Finset.card heq
    rwa [List.toFinset_card_of_nodup hnd, Finset.card_range] at this
  · intro hlen i hi
    have hcard : (Finset.range t).card ≤ l.toFinset.card := by
      rw [List.toFinset_card_of_nodup hnd, Finset.card_range, hlen]
    have heq := Finset.eq_of_subset_of_card_le hsub hcard
    have : i ∈ l.toFinset := by
      rw [heq]
      exact Finset.mem_range.mpr hi
    exact List.mem_toFinset.mp this

theorem roundedPercent_facts (c t : Nat) (ht : 0 < t) (hct : c ≤ t) :
    0 ≤ roundHalfUp (100 * (c : ℚ) / (t : ℚ)) ∧
      roundHalfUp (100 * (c : ℚ) / (t : ℚ)) ≤ 100 ∧
      (c = t → roundHalfUp (100 * (c : ℚ) / (t : ℚ)) = 100) ∧
      (c = 0 → roundHalfUp (100 * (c : ℚ) / (t : ℚ)) = 0) ∧
      (t < 200 → roundHalfUp (100 * (c : ℚ) / (t : ℚ)) = 100 → c = t) ∧
      (t < 200 → roundHalfUp (100 * (c : ℚ) / (t : ℚ)) = 0 → c = 0) := by
  have htq : (0 : ℚ) < (t : ℚ) := by exact_mod_cast ht
  have hcq : (c : ℚ) ≤ (t : ℚ) := by exact_mod_cast hct
  have hc0 : (0 : ℚ) ≤ (c : ℚ) := by positivity
  have hle : 100 * (c : ℚ) / (t : ℚ) ≤ 100 := by
    rw [div_le_iff₀ htq]
    linarith
  have hge : 0 ≤ 100 * (c : ℚ) / (t : ℚ) := by positivity
  refine ⟨roundHalfUp_nonneg hge, ?_, ?_, ?_, ?_, ?_⟩
  · have : roundHalfUp (100 * (c : ℚ) / (t : ℚ)) < 101 := by
      unfold roundHalfUp
      apply Int.floor_lt.mpr
      push_cast
      linarith
    omega
  · intro h
    subst h
    have : 100 * (c : ℚ) / (c : ℚ) = 100 := by field_simp
    rw [this, roundHalfUp, Int.floor_eq_iff]
    norm_num
  · intro h
    subst h
    simp only [Nat.cast_zero, mul_zero, zero_div, roundHalfUp, Int.floor_eq_iff]
    norm_num
  · intro h200 hr
    by_contra hne
    have hlt : c + 1 ≤ t := by omega
    have hfl : (100 : ℚ) ≤ 100 * (c : ℚ) / (t : ℚ) + 1 / 2 := by
      have := Int.floor_le (100 * (c : ℚ) / (t : ℚ) + 1 / 2)
      unfold roundHalfUp at hr
      rw [hr] at this
      exact_mod_cast this
    have h1 : (199 : ℚ) * (t : ℚ) ≤ 200 * (c : ℚ) := by
      have h2 : (199 / 2 : ℚ) ≤ 100 * (c : ℚ) / (t : ℚ) := by linarith
      rw [le_div_iff₀ htq] at h2
      linarith
    have h3 : 199 * t ≤ 200 * c := by exact_mod_cast h1
    omega
  · intro h200 hr
    by_contra hne
    have hpos : 1 ≤ c := by omega
    have hfl : 100 * (c : ℚ) / (t : ℚ) + 1 / 2 < 1 := by
      have := Int.lt_floor_add_one (100 * (c : ℚ) / (t : ℚ) + 1 / 2)
      unfold roundHalfUp at hr
      rw [hr] at this
      simpa using this
    have h1 : 200 * (c : ℚ) < (t : ℚ) := by
      have h2 : 100 * (c : ℚ) / (t : ℚ) < 1 / 2 := by linarith
      rw [div_lt_iff₀ htq] at h2
      linarith
    have h3 : 200 * c < t := by exact_mod_cast h1
    omega

/-- C29, as stated, fails: for the sprint of 201 tasks with the one valid
completed index 0, `completionRate` and the returned `currentProgress` are both
0, although `completedTasks` is not empty. -/
theorem completionRate_zero_counterexample :
    (calculateSprintInsights { sprints := [largeSprint] } (some largeSprint)).map
        (fun i => i.completionRate) = some (JSNum.fin 0) ∧
      (predictSprintCompletion { sprints := [largeSprint] } juneNow largeSprint.id).map
        (fun p => p.currentProgress) = some (JSNum.fin 0) ∧
      largeSprint.completedTasks = some [0] ∧
      validIndices largeSprint ∧
      numTasks largeSprint = 201 := by
  have hn : numTasks largeSprint = 201 := by
    simp only [numTasks, largeSprint, Option.getD_some, List.length_replicate]
  have hk : numCompleted largeSprint = 1 := by
    simp only [numCompleted, largeSprint, Option.getD_some, List.length_singleton]
  have hr : roundHalfUp (100 * ((1 : ℕ) : ℚ) / ((201 : ℕ) : ℚ)) = 0 := by
    rw [roundHalfUp, Int.floor_eq_iff]
    norm_num
  have hfind : (({ sprints := [largeSprint] } : Store).sprints.find?
      (fun s => decide (s.id = largeSprint.id))) = some largeSprint :=
    List.find?_cons_of_pos _ (by simp)
  refine ⟨?_, ?_, rfl, ?_, hn⟩
  · have h := insight_completionRate_eq { sprints := [largeSprint] } largeSprint
    simp only [calculateSprintInsights] at h ⊢
    simp only [Option.map_some', h, specCompletionRate, hn, hk, hr]
    simp
  · rw [predictSprintCompletion_eq _ _ _ _ hfind]
    have hT : specTotalTasks largeSprint = 201 := by simp [specTotalTasks, hn]
    simp only [Option.map_some', specCurrentProgress, hT, hk, hr]
    simp
  · intro i hi
    simp only [largeSprint, Option.getD_some, List.mem_singleton] at hi
    rw [hn, hi]
    norm_num

/-- C29, amended. For a found sprint whose `completedTasks` is a duplicate-free
list of valid indices into a non-empty `weeklyTasks`, `completionRate` and the
returned `currentProgress` are the same number in [0, 100]; it is 100 when
every task index is completed and 0 when `completedTasks` is empty, and for
fewer than 200 tasks it is 100 only when every index is completed and 0 only
when the list is empty. The unrounded `currentProgress` of the computation is
100 exactly when every index is completed and 0 exactly when the list is
empty. -/
theorem progress_range_and_ends (st : Store) (now : Int) (sprintId : String) (sprint : Sprint)
    (tasks : List Task) (completed : List Nat)
    (h : st.sprints.find? (fun s => decide (s.id = sprintId)) = some sprint)
    (hw : sprint.weeklyTasks = some tasks) (hne : tasks ≠ [])
    (hc : sprint.completedTasks = some completed) (hnd : completed.Nodup)
    (hv : ∀ i ∈ completed, i < tasks.length) :
    ∃ (ins : Insight) (p : Prediction) (r : ℤ) (u : ℚ),
      calculateSprintInsights st (some sprint) = some ins ∧
      predictSprintCompletion st now sprintId = some p ∧
      ins.completionRate = JSNum.fin (r : ℚ) ∧
      p.currentProgress = JSNum.fin (r : ℚ) ∧
      (forecastLocals st now sprint).currentProgress = JSNum.fin u ∧
      0 ≤ r ∧ r ≤ 100 ∧ 0 ≤ u ∧ u ≤ 100 ∧
      ((∀ i, i < tasks.length → i ∈ completed) → r = 100) ∧
      (completed = [] → r = 0) ∧
      (tasks.length < 200 → r = 100 → ∀ i, i < tasks.length → i ∈ completed) ∧
      (tasks.length < 200 → r = 0 → completed = []) ∧
      (u = 100 ↔ ∀ i, i < tasks.length → i ∈ completed) ∧
      (u = 0 ↔ completed = []) := by
  have hn : numTasks sprint = tasks.length := by simp [numTasks, hw]
  have hk : numCompleted sprint = completed.length := by simp [numCompleted, hc]
  have ht : 0 < tasks.length := List.length_pos.mpr hne
  have hct : completed.length ≤ tasks.length := length_le_of_nodup_lt completed _ hnd hv
  have hall := all_mem_iff_length_eq completed tasks.length hnd hv
  have hT : specTotalTasks sprint = tasks.length := by
    simp only [specTotalTasks, hn]
    exact max_eq_right ht
  obtain ⟨f0, f1, f2, f3, f4, f5⟩ := roundedPercent_facts completed.length tasks.length ht hct
  have htq : (0 : ℚ) < (tasks.length : ℚ) := by exact_mod_cast ht
  have hcq : (completed.length : ℚ) ≤ (tasks.length : ℚ) := by exact_mod_cast hct
  refine ⟨_, _, roundHalfUp (100 * (completed.length : ℚ) / (tasks.length : ℚ)),
    100 * (completed.length : ℚ) / (tasks.length : ℚ), rfl,
    predictSprintCompletion_eq st now sprintId sprint h, ?_, ?_, ?_, f0, f1, by positivity, ?_,
    ?_, ?_, ?_, ?_, ?_, ?_⟩
  · have hi := insight_completionRate_eq st sprint
    simp only [calculateSprintInsights] at hi
    rw [hi]
    simp only [specCompletionRate, hn, hk, ht, if_true]
  · simp only [specCurrentProgress, hT, hk]
  · rw [forecastLocals_eq]
    simp only [specCurrentProgress, hT, hk]
  · rw [div_le_iff₀ htq]
    linarith
  · intro ha
    exact f2 (hall.mp ha)
  · intro he
    exact f3 (by simp [he])
  · intro h200 hr
    exact hall.mpr (f4 h200 hr)
  · intro h200 hr
    exact List.length_eq_zero.mp (f5 h200 hr)
  · rw [hall]
    constructor
    · intro hu
      have h1 : 100 * (completed.length : ℚ) = 100 * (tasks.length : ℚ) := by
        rw [div_eq_iff htq.ne'] at hu
        exact hu
      have h2 : (completed.length : ℚ) = (tasks.length : ℚ) := by linarith
      exact_mod_cast h2
    · intro hl
      rw [hl]
      field_simp
  · constructor
    · intro hu
      have h1 : 100 * (completed.length : ℚ) = 0 := by
        rw [div_eq_iff htq.ne'] at hu
        simpa using hu
      have h2 : (completed.length : ℚ) = 0 := by linarith
      have h3 : completed.length = 0 := by exact_mod_cast h2
      exact List.length_eq_zero.mp h3
    · intro he
      simp [he]

/-! ## Missing sprints and the frame of a toggle -/

theorem map_ite_id_of_absent (f : Sprint → Sprint) (sprintId : String) (prev : List Sprint)
    (h : ∀ s ∈ prev, s.id ≠ sprintId) :
    prev.map (fun s => if s.id = sprintId then f s else s) = prev := by
  induction prev with
  | nil => rfl
  | cons a t ih =>
    have ha : a.id ≠ sprintId := h a (List.mem_cons_self _ _)
    have ht := ih (fun s hs => h s (List.mem_cons_of_mem _ hs))
    simp only [List.map_cons, ha, if_false, ht]

/-- C24. For a sprint id that no sprint of the collection has,
`predictSprintCompletion` returns `null` and `toggleTaskComplete`,
`updateSprint` and `toggleGoalPrivacy` leave the collection unchanged; and for
the id of every sprint of the collection `predictSprintCompletion` returns a
prediction. -/
theorem missing_sprint_is_noop (st : Store) (now : Int) (sprintId : String) (taskIndex : Nat)
    (updates : SprintUpdates) (goalName : String)
    (h : ∀ s ∈ st.sprints, s.id ≠ sprintId) :
    predictSprintCompletion st now sprintId = none ∧
      toggleTaskComplete sprintId taskIndex st.sprints = st.sprints ∧
      updateSprint sprintId updates st.sprints = st.sprints ∧
      toggleGoalPrivacy sprintId goalName st.sprints = st.sprints ∧
      (∀ s ∈ st.sprints, ∃ p, predictSprintCompletion st now s.id = some p) := by
  refine ⟨?_, map_ite_id_of_absent _ sprintId _ h, map_ite_id_of_absent _ sprintId _ h,
    map_ite_id_of_absent _ sprintId _ h, ?_⟩
  · have hnone : st.sprints.find? (fun s => decide (s.id = sprintId)) = none := by
      apply List.find?_eq_none.mpr
      intro s hs
      simpa using h s hs
    simp [predictSprintCompletion, hnone]
  · intro s hs
    obtain ⟨found, hf⟩ := find_of_mem st.sprints s hs
    exact ⟨_, predictSprintCompletion_eq st now s.id found hf⟩

/-- C26. `toggleTaskComplete` keeps the number and the order of the sprints,
leaves every sprint with another id as it is, and in a sprint with the given
id changes only `completedTasks`: `weeklyTasks` and every other field are
unchanged. -/
theorem toggleTaskComplete_frame (sprintId : String) (taskIndex : Nat) (prev : List Sprint) :
    (toggleTaskComplete sprintId taskIndex prev).length = prev.length ∧
      ∀ (k : Nat) (s : Sprint), prev[k]? = some s →
        ∃ s' : Sprint, (toggleTaskComplete sprintId taskIndex prev)[k]? = some s' ∧
          s' = { s with completedTasks := s'.completedTasks } ∧
          s'.weeklyTasks = s.weeklyTasks ∧
          (s.id ≠ sprintId → s' = s) ∧
          (s.id = sprintId →
            s'.completedTasks = some (toggleCompleted s.completedTasks taskIndex)) := by
  refine ⟨by simp [toggleTaskComplete], ?_⟩
  intro k s hk
  by_cases hid : s.id = sprintId
  · refine ⟨{ s with completedTasks := some (toggleCompleted s.completedTasks taskIndex) },
      by simp [toggleTaskComplete, hk, hid], rfl, rfl, fun hne => absurd hid hne, fun _ => rfl⟩
  · exact ⟨s, by simp [toggleTaskComplete, hk, hid], rfl, rfl, fun _ => rfl,
      fun he => absurd he hid⟩

/-! ## Weekly report: the insights of the qualifying sprints -/

theorem calculateSprintInsights_eq (st : Store) (sprint : Sprint) :
    calculateSprintInsights st (some sprint) = some (specInsight st sprint) := by
  have hlen : JSNum.orElseOpt (lengthOf sprint.weeklyTasks) (JSNum.fin 0)
      = JSNum.fin (numTasks sprint : ℚ) := by simp [length_or_zero, numTasks]
  have hc : JSNum.orElseOpt (lengthOf sprint.completedTasks) (JSNum.fin 0)
      = JSNum.fin (numCompleted sprint : ℚ) := by simp [length_or_zero, numCompleted]
  have h10 : (10 : ℚ) ≠ 0 := by norm_num
  simp only [calculateSprintInsights, hlen, hc, postponementLoop_eq, hoursLoggedOf_eq,
    specInsight, specCompletionRate, specAvgPostponements, specTotalPostponements, specHours]
  by_cases h : 0 < numTasks sprint
  · have hq : (0 : ℚ) < (numTasks sprint : ℚ) := by exact_mod_cast h
    have hmul : (numCompleted sprint : ℚ) / (numTasks sprint : ℚ) * 100
        = 100 * (numCompleted sprint : ℚ) / (numTasks sprint : ℚ) := by ring
    simp only [gt_fin, hq, decide_True, if_true, div_fin _ hq.ne', mul_fin, round_fin, h,
      div_fin _ h10, decide_eq_true_eq, hmul]
  · have hq : ¬ (0 : ℚ) < (numTasks sprint : ℚ) := by exact_mod_cast h
    simp only [gt_fin, hq, decide_False, if_false, h, decide_eq_true_eq]
    simp

theorem addXP_streak (amount : Int) (st : Store) :
    (addXP amount st).streak = st.streak ∧ (addXP amount st).lastCheckIn = st.lastCheckIn := by
  simp only [addXP]
  split_ifs <;> exact ⟨rfl, rfl⟩

theorem utcDay_pred (now : Int) : utcDay (now - 86400000) = utcDay now - 1 := by
  unfold utcDay
  omega

/-- In a zone whose offset never changes, and with calendar days read in UTC,
`dailyCheckIn` continues the streak: a second check-in on the same day returns
`false` and changes nothing; otherwise it returns `true`, stores now as the
last check-in, adds 25 experience points and sets the streak to the previous
streak plus 1 when the last check-in was on the preceding day and to 1 in every
other case. -/
theorem dailyCheckIn_fixed_offset (tz : TimeZone) (offset : Int)
    (hu : tz.offsetAtUTC = fun _ => offset) (hl : tz.offsetAtLocal = fun _ => offset)
    (now : Int) (st : Store) :
    (st.lastCheckIn.map utcDay = some (utcDay now) → dailyCheckIn tz now st = (false, st)) ∧
      (st.lastCheckIn.map utcDay ≠ some (utcDay now) →
        (dailyCheckIn tz now st).1 = true ∧
        (dailyCheckIn tz now st).2.lastCheckIn = some now ∧
        (dailyCheckIn tz now st).2.xp = st.xp + 25 ∧
        (st.lastCheckIn.map utcDay = some (utcDay now - 1) →
          (dailyCheckIn tz now st).2.streak = st.streak + 1) ∧
        (st.lastCheckIn.map utcDay ≠ some (utcDay now - 1) →
          (dailyCheckIn tz now st).2.streak = 1)) := by
  have hy : utcDay (setDatePlus tz now (-1)) = utcDay now - 1 := by
    rw [← utcDay_pred]
    simp only [setDatePlus, hu, hl]
    congr 1
    ring
  constructor
  · intro h
    simp only [dailyCheckIn, h, if_true]
  · intro h
    have hd : dailyCheckIn tz now st =
        (true, addXP 25 { st with
          streak := if st.lastCheckIn.map utcDay = some (utcDay now - 1) then st.streak + 1 else 1,
          lastCheckIn := some now }) := by
      simp only [dailyCheckIn, h, if_false, hy]
    rw [hd]
    refine ⟨rfl, (addXP_streak _ _).2, addXP_xp _ _, ?_, ?_⟩
    · intro h1
      rw [(addXP_streak _ _).1]
      simp only [h1, if_true]
    · intro h1
      rw [(addXP_streak _ _).1]
      simp only [h1, if_false]

/-- C27, the failing input. In US Eastern time, with a streak of 5 and the last
check-in on 2024-03-09 (day 19791, in UTC and in local time), a check-in on
2024-03-10 at 19:30 local time (day 19792) returns `true` and sets the streak
to 1: `yesterday` is taken one local day back, across the change of the
clocks, and read in UTC it is 2024-03-10 again. -/
theorem dailyCheckIn_dst_evaluation :
    (dailyCheckIn usEastern2024 marchNow streakStore).1 = true ∧
      (dailyCheckIn usEastern2024 marchNow streakStore).2.streak = 1 ∧
      streakStore.streak = 5 ∧
      streakStore.lastCheckIn.map utcDay = some 19791 ∧
      utcDay marchNow = 19792 ∧
      utcDay (setDatePlus usEastern2024 marchNow (-1)) = 19792 := by
  have h1 : streakStore.lastCheckIn.map utcDay = some 19791 := by
    simp [streakStore, utcDay]
  have h2 : utcDay marchNow = 19792 := by
    simp [marchNow, utcDay]
  have h3 : utcDay (setDatePlus usEastern2024 marchNow (-1)) = 19792 := by
    simp [setDatePlus, usEastern2024, marchNow, utcDay]
  refine ⟨?_, ?_, rfl, h1, h2, h3⟩
  · simp [dailyCheckIn, h1, h2]
  · simp only [dailyCheckIn, h1, h2, h3]
    simp only [Option.some.injEq, show ¬ ((19791 : Int) = 19792) by norm_num, if_false]
    rw [(addXP_streak _ _).1]

/-! ## Reads of partially formed sprints -/

theorem specInsight_defaults (st : Store) (sprint : Sprint) :
    (sprint.weeklyTasks = none →
        (specInsight st sprint).totalTasks = JSNum.fin 0 ∧
        (specInsight st sprint).completionRate = JSNum.fin 0) ∧
      (sprint.completedTasks = none →
        (specInsight st sprint).completedTasks = JSNum.fin 0 ∧
        (specInsight st sprint).completionRate = JSNum.fin 0) ∧
      (sprint.goalCategories = none → (specInsight st sprint).categories = []) := by
  refine ⟨?_, ?_, ?_⟩
  · intro h
    simp [specInsight, specCompletionRate, numTasks, h]
  · intro h
    have hr : roundHalfUp 0 = 0 := by
      unfold roundHalfUp
      norm_num
    simp [specInsight, specCompletionRate, numCompleted, h, hr]
  · intro h
    simp [specInsight, h]

/-- The chart data of `getCompletionRateData` exist exactly when every sprint
read has a `name`. -/
theorem completionPoints_ok_iff (st : Store) (l : List Sprint) :
    (∃ points, completionPoints st l = Except.ok points) ↔ ∀ s ∈ l, s.name ≠ none := by
  induction l with
  | nil => simp [completionPoints]
  | cons s rest ih =>
    rw [completionPoints, calculateSprintInsights_eq]
    cases hn : s.name with
    | none => simp [hn]
    | some name =>
      cases hr : completionPoints st rest with
      | ok points =>
        have h1 : ∀ s ∈ rest, s.name ≠ none := ih.mp ⟨points, hr⟩
        simp only [List.mem_cons, forall_eq_or_imp, hn, ne_eq, not_false_eq_true, true_and,
          reduceCtorEq]
        exact ⟨fun _ => h1, fun _ => ⟨_, rfl⟩⟩
      | error e =>
        have h1 : ¬ ∀ s ∈ rest, s.name ≠ none := by
          intro h
          obtain ⟨points, hp⟩ := ih.mpr h
          rw [hr] at hp
          cases hp
        simp only [List.mem_cons, forall_eq_or_imp, hn, ne_eq, not_false_eq_true, true_and,
          reduceCtorEq]
        constructor
        · rintro ⟨points, hp⟩
          cases hp
        · intro h
          exact absurd h h1

/-- C25, the failing input. For a store whose only sprint has six tasks and no
`name`, `calculateSprintInsights`, `predictSprintCompletion` and
`calculateCategorySuccessRate` return values, and `getCompletionRateData`
fails with a `TypeError`: it calls `substring` on the missing name. -/
theorem getCompletionRateData_missing_name_evaluation :
    winterSprint.name = none ∧
      calculateSprintInsights namelessStore (some winterSprint)
        = some (specInsight namelessStore winterSprint) ∧
      (predictSprintCompletion namelessStore juneNow winterSprint.id).isSome = true ∧
      calculateCategorySuccessRate namelessStore winterSprint.category = JSNum.fin 50 ∧
      getCompletionRateData namelessStore =
        Except.error "TypeError: Cannot read properties of undefined (reading 'substring')" := by
  refine ⟨rfl, calculateSprintInsights_eq _ _, ?_, ?_, ?_⟩
  · rw [predictSprintCompletion_eq namelessStore juneNow winterSprint.id winterSprint
      (by simp [namelessStore, winterSprint])]
    rfl
  · simp [calculateCategorySuccessRate, namelessStore]
  · simp only [getCompletionRateData, namelessStore, sliceLast, List.nil_append,
      List.length_singleton, List.drop_zero, Nat.sub_eq_zero_of_le (by norm_num : 1 ≤ 12),
      completionPoints, calculateSprintInsights_eq]
    rfl

/-! ## Validation and repair: properties -/

theorem validateSprint_ok_iff (r : RawSprint) :
    validateSprint (some r) = { valid := true, errors := [] } ↔
      (readField r.id).truthy = true ∧ (readField r.name).truthy = true ∧
        (readField r.goal).truthy = true ∧ (readField r.startDate).truthy = true ∧
        (readField r.endDate).truthy = true ∧ (readField r.weeklyTasks).isArray = true ∧
        (readField r.completedTasks).isArray = true := by
  simp only [validateSprint]
  cases (readField r.id).truthy <;> cases (readField r.name).truthy <;>
    cases (readField r.goal).truthy <;> cases (readField r.startDate).truthy <;>
    cases (readField r.endDate).truthy <;> cases (readField r.weeklyTasks).isArray <;>
    cases (readField r.completedTasks).isArray <;> simp [pushError]

theorem sprintId_ne_empty (now : Int) : "sprint-" ++ toString now ≠ "" := by
  intro h
  have hl := congrArg String.length h
  rw [String.length_append] at hl
  have h7 : "sprint-".length = 7 := by decide
  have h0 : "".length = 0 := by decide
  omega

theorem orElse_truthy (a b : JSVal) (h : b.truthy = true) : (a.orElse b).truthy = true := by
  unfold JSVal.orElse
  split_ifs with ha
  · exact ha
  · exact h

theorem truthy_spreadLast (computed : JSVal) (own : Option JSVal)
    (h : own = none → computed.truthy = true) :
    (readField (some (spreadLast computed own))).truthy = true ↔
      ∀ v, own = some v → v.truthy = true := by
  cases own with
  | none => simp [readField, spreadLast, h rfl]
  | some v => simp [readField, spreadLast]

theorem isArray_spreadLast (own : Option JSVal) :
    (readField (some (spreadLast
        (if (readField own).isArray then readField own else JSVal.array 0) own))).isArray = true ↔
      ∀ v, own = some v → v.isArray = true := by
  cases own with
  | none => simp [readField, spreadLast, JSVal.isArray]
  | some v => simp [readField, spreadLast]

/-- The sprint returned by `repairSprint` passes `validateSprint` exactly when
each of the keys `id`, `name`, `goal`, `startDate`, `endDate` that the stored
sprint has holds a truthy value, and each of the keys `weeklyTasks`,
`completedTasks` that it has holds an array: a missing key is repaired, a key
that is present keeps its value. -/
theorem repairSprint_valid_iff (tz : TimeZone) (now : Int) (sprint : RawSprint) :
    validateSprint (some (repairSprint tz now sprint)) = { valid := true, errors := [] } ↔
      (∀ v, sprint.id = some v → v.truthy = true) ∧
        (∀ v, sprint.name = some v → v.truthy = true) ∧
        (∀ v, sprint.goal = some v → v.truthy = true) ∧
        (∀ v, sprint.startDate = some v → v.truthy = true) ∧
        (∀ v, sprint.endDate = some v → v.truthy = true) ∧
        (∀ v, sprint.weeklyTasks = some v → v.isArray = true) ∧
        (∀ v, sprint.completedTasks = some v → v.isArray = true) := by
  rw [validateSprint_ok_iff]
  simp only [repairSprint]
  rw [truthy_spreadLast _ sprint.id
      (fun _ => orElse_truthy _ _ (by simp [JSVal.truthy, sprintId_ne_empty])),
    truthy_spreadLast _ sprint.name (fun _ => orElse_truthy _ _ (by simp [JSVal.truthy])),
    truthy_spreadLast _ sprint.goal (fun _ => orElse_truthy _ _ (by simp [JSVal.truthy])),
    truthy_spreadLast _ sprint.startDate
      (fun _ => orElse_truthy _ _ (by simp [JSVal.truthy, getDateString])),
    truthy_spreadLast _ sprint.endDate
      (fun _ => orElse_truthy _ _ (by simp [JSVal.truthy, getDateString])),
    isArray_spreadLast, isArray_spreadLast]

/-- C30, the failing input. A stored sprint whose `id` is the empty string and
whose other checked fields are in order is returned by `repairSprint` with the
empty `id`, and `validateSprint` reports `Missing id` for the result: the
spread of the sprint comes last in the object literal and replaces the repaired
`id`. A sprint with none of the keys is repaired to a valid one. -/
theorem repairSprint_empty_id_evaluation :
    emptyIdSprint.id = some (JSVal.str "") ∧
      (repairSprint utcZone juneNow emptyIdSprint).id = some (JSVal.str "") ∧
      validateSprint (some (repairSprint utcZone juneNow emptyIdSprint))
        = { valid := false, errors := ["Missing id"] } ∧
      validateSprint (some (repairSprint utcZone juneNow bareRawSprint))
        = { valid := true, errors := [] } := by
  refine ⟨rfl, rfl, ?_, ?_⟩
  · simp [validateSprint, repairSprint, emptyIdSprint, spreadLast, readField, pushError,
      JSVal.truthy, JSVal.isArray]
  · rw [repairSprint_valid_iff]
    simp [bareRawSprint]

/-! ## The properties at the example data -/

theorem demo_find :
    demoStore.sprints.find? (fun s => decide (s.id = "1700000000000")) = some demoSprint := by
  simp [demoStore, demoSprint]

/-- C4 at the example store. -/
theorem predictSprintCompletion_example_witness :
    ∃ p, predictSprintCompletion demoStore demoNow "1700000000000" = some p ∧
      p.currentProgress = JSNum.fin 30 ∧
      p.elapsedDays = JSNum.fin 10 ∧
      p.velocity = JSNum.fin (3 / 10) ∧
      p.totalDays = JSNum.fin 30 ∧
      p.remainingDays = JSNum.fin 20 ∧
      p.predictedDaysRemaining = JSNum.fin ((roundHalfUp (7 / (3 / 10)) : ℤ) : ℚ) ∧
      p.predictedDaysRemaining = JSNum.fin 23 ∧
      flagLowVelocity ∈ p.riskFlags ∧
      flagFallingBehind ∉ p.riskFlags :=
  predictSprintCompletion_example demoStore demoNow "1700000000000" demoSprint
    (List.replicate 10 {}) demo_find rfl rfl rfl (by decide) (by decide)

/-- C10 at the example store: toggling task 1 of the example sprint. -/
theorem toggleTaskComplete_toggle_witness :
    ∃ s1 l1 s2 l2,
      (toggleTaskComplete demoSprint.id 1 demoStore.sprints)[0]? = some s1 ∧
      s1.completedTasks = some l1 ∧
      l1.Nodup ∧
      (1 ∈ l1 ↔ 1 ∉ demoSprint.completedTasks.getD []) ∧
      (toggleTaskComplete demoSprint.id 1
          (toggleTaskComplete demoSprint.id 1 demoStore.sprints))[0]? = some s2 ∧
      s2.completedTasks = some l2 ∧
      l2.Nodup ∧
      (∀ j, j ∈ l2 ↔ j ∈ demoSprint.completedTasks.getD []) :=
  toggleTaskComplete_toggle demoStore.sprints 0 demoSprint 1 rfl (by decide)

/-- C11, amended, at the example sprint: toggling position 5. -/
theorem toggle_validIndices_witness :
    (∀ s ∈ [demoSprint], validIndices s) ∧
      (∀ s ∈ [demoSprint], s.id = demoSprint.id → 5 < numTasks s) ∧
      (∀ s ∈ toggleTaskComplete demoSprint.id 5 [demoSprint], validIndices s) :=
  ⟨by simp [validIndices, demoSprint, numTasks], by simp [demoSprint, numTasks],
    toggle_validIndices [demoSprint] demoSprint.id 5
      (by simp [validIndices, demoSprint, numTasks])
      (by simp [demoSprint, numTasks])⟩

/-- C15, amended, at the example store: logging an hour and a half. -/
theorem logTime_spec_witness :
    hoursAt (logTime "1700000000000-0" (3 / 2) loggedStore) "1700000000000-0"
        = hoursAt loggedStore "1700000000000-0" + 3 / 2 ∧
      hoursAt (logTime "1700000000000-0" (3 / 2) loggedStore) "1700000000000-0"
        ≥ hoursAt loggedStore "1700000000000-0" ∧
      ∀ key, key ≠ "1700000000000-0" →
        (logTime "1700000000000-0" (3 / 2) loggedStore).timeLogged key
          = loggedStore.timeLogged key :=
  logTime_spec loggedStore "1700000000000-0" (3 / 2) (by norm_num)

/-- C16 at the example store: 30 points added to 500 points at level 2. -/
theorem addXP_level_witness :
    (addXP 30 loggedStore).xp = loggedStore.xp + 30 ∧
      loggedStore.xp ≤ (addXP 30 loggedStore).xp ∧
      (addXP 30 loggedStore).level = ⌊((addXP 30 loggedStore).xp : ℚ) / 500⌋ + 1 ∧
      (loggedStore.xp + 30 = 499 → (addXP 30 loggedStore).level = 1) ∧
      (loggedStore.xp + 30 = 500 → (addXP 30 loggedStore).level = 2) :=
  addXP_level loggedStore 30 (by norm_num [loggedStore]) (by norm_num)

/-- C19 at the example store. -/
theorem checkBadges_spec_witness :
    ∃ appended,
      (checkBadges badgeStore).unlockedBadges = badgeStore.unlockedBadges ++ appended ∧
      (checkBadges badgeStore).unlockedBadges.Nodup ∧
      (∀ b, b ∈ appended ↔
        b ∉ badgeStore.unlockedBadges ∧
          ((b = "first-100" ∧ badgeStore.xp ≥ 100) ∨ (b = "xp-500" ∧ badgeStore.xp ≥ 500)
            ∨ (b = "seven-day-streak" ∧ badgeStore.streak ≥ 7)
            ∨ (b = "sprint-master" ∧ badgeStore.completedSprints.length ≥ 5))) ∧
      (checkBadges (checkBadges badgeStore)).unlockedBadges
        = (checkBadges badgeStore).unlockedBadges :=
  checkBadges_spec badgeStore (by simp [badgeStore])

/-- C20 at the example store: the only completed sprint was created on
2024-01-01 and the report is made on 2024-06-20. -/
theorem generateWeeklyReport_empty_witness :
    (generateWeeklyReport utcZone juneNow winterStore).stats.avgCompletion = JSNum.fin 0 ∧
      (generateWeeklyReport utcZone juneNow winterStore).stats.avgPostponements = JSNum.fin 0 ∧
      (generateWeeklyReport utcZone juneNow winterStore).stats.totalHours = JSNum.fin 0 ∧
      (generateWeeklyReport utcZone juneNow winterStore).stats.sprintsCompleted = 0 ∧
      (generateWeeklyReport utcZone juneNow winterStore).insights = [msgNoSprints] ∧
      (generateWeeklyReport utcZone juneNow winterStore).insights.length = 1 :=
  generateWeeklyReport_empty utcZone juneNow winterStore
    (by simp [winterStore, setDatePlus, utcZone, juneNow])

/-- C24 at the example store, for an id that no sprint has. -/
theorem missing_sprint_is_noop_witness :
    (∀ s ∈ demoStore.sprints, s.id ≠ "0") ∧
      predictSprintCompletion demoStore demoNow "0" = none ∧
      toggleTaskComplete "0" 1 demoStore.sprints = demoStore.sprints ∧
      updateSprint "0" { name := some (some "Renamed") } demoStore.sprints = demoStore.sprints ∧
      toggleGoalPrivacy "0" "learn to code" demoStore.sprints = demoStore.sprints ∧
      (∀ s ∈ demoStore.sprints, ∃ p, predictSprintCompletion demoStore demoNow s.id = some p) :=
  ⟨by simp [demoStore, demoSprint],
    missing_sprint_is_noop demoStore demoNow "0" 1 { name := some (some "Renamed") }
      "learn to code" (by simp [demoStore, demoSprint])⟩

/-- C29, amended, at the example sprint: ten tasks, three of them completed. -/
theorem progress_range_and_ends_witness :
    ∃ (ins : Insight) (p : Prediction) (r : ℤ) (u : ℚ),
      calculateSprintInsights demoStore (some demoSprint) = some ins ∧
      predictSprintCompletion demoStore demoNow "1700000000000" = some p ∧
      ins.completionRate = JSNum.fin (r : ℚ) ∧
      p.currentProgress = JSNum.fin (r : ℚ) ∧
      (forecastLocals demoStore demoNow demoSprint).currentProgress = JSNum.fin u ∧
      0 ≤ r ∧ r ≤ 100 ∧ 0 ≤ u ∧ u ≤ 100 ∧
      ((∀ i, i < (List.replicate 10 ({} : Task)).length → i ∈ [0, 1, 2]) → r = 100) ∧
      (([0, 1, 2] : List Nat) = [] → r = 0) ∧
      ((List.replicate 10 ({} : Task)).length < 200 → r = 100 →
        ∀ i, i < (List.replicate 10 ({} : Task)).length → i ∈ [0, 1, 2]) ∧
      ((List.replicate 10 ({} : Task)).length < 200 → r = 0 → ([0, 1, 2] : List Nat) = []) ∧
      (u = 100 ↔ ∀ i, i < (List.replicate 10 ({} : Task)).length → i ∈ [0, 1, 2]) ∧
      (u = 0 ↔ ([0, 1, 2] : List Nat) = []) :=
  progress_range_and_ends demoStore demoNow "1700000000000" demoSprint
    (List.replicate 10 {}) [0, 1, 2] demo_find rfl (by simp) rfl (by decide) (by simp)

end SprintTracker
